import Mathlib

/-!
# Verification of the fcbot prediction engine

Shallow embedding of the scoring/ranking engine of the repository
(`prediction_engine_ultimate.py` and the `PredictionEngine.predict_3in3` /
`DatabaseHandler.get_history` parts of `bot.py`) together with proofs about
the claims of the specification.

Modelling conventions:
* Python `float` arithmetic is modelled exactly over `ℚ` (the heuristics only
  use ratios of small integers, so `ℚ` is the idealised semantics of the
  source formulas).
* The process-wide `random` module is modelled as an explicit `RngState`
  threaded through the computation.  `random.seed(n)` replaces the state by
  `RngState.seeded n 0`; `random.seed()` (no argument) replaces it by
  `RngState.unseeded entropy 0` where `entropy` is an ambient source of fresh
  randomness; `random.random()` consumes one value of the underlying stream.
  The pseudo-random function itself (`prng : ℤ → ℕ → ℚ`, mapping a seed and a
  position to a unit-interval value) is an abstract parameter: it is the same
  function across all calls of one process, which is what the determinism
  claims are about.
* Python division is exact division on `ℚ`; the one place where the source
  can divide by zero is modelled with `div?`, returning `none` exactly when
  CPython raises `ZeroDivisionError`.
* Period ids (`expect`) are decimal strings of digits in the source; they are
  modelled by their numeric value (`ℕ`), with `int(expect[-3:])` becoming
  `n % 1000`.
* The database handler is modelled by the list of `DrawRecord`s it would
  return, newest first (`get_history(limit)` = `List.take limit`), and by the
  list of previously emitted prediction pairs.
* `numpy` is modelled as unavailable (the source catches the `ImportError`
  and every Fourier computation then takes the documented fallback path;
  the float FFT itself is outside the rational fragment).
-/

/-- Exact division that fails (like CPython's `ZeroDivisionError`) on a zero
denominator. -/
def div? (a b : ℚ) : Option ℚ :=
  if b = 0 then none else some (a / b)

/-- One historical lottery draw, as returned by `DatabaseHandler.get_history`
(`bot.py`): period id, the 7 drawn balls in draw order, the special number
(*tema*) and its zodiac label. -/
structure DrawRecord where
  expect : ℕ
  open_code : List ℕ
  tema : ℕ
  tema_zodiac : String
deriving DecidableEq

/-- The state of the process-wide `random` generator: either deterministically
seeded (by `random.seed(n)`) or freshly seeded from ambient entropy
(by `random.seed()`). `pos` is the number of values consumed so far. -/
inductive RngState where
  | seeded (seed : ℤ) (pos : ℕ)
  | unseeded (entropy : ℕ → ℚ) (pos : ℕ)

/-- Whether the generator is in a deterministically seeded state. -/
def RngState.isSeeded : RngState → Bool
  | .seeded _ _ => true
  | .unseeded _ _ => false

/-- `random.random()`: one draw from the generator. `prng` is the abstract
pseudo-random function used for seeded states. -/
def nextDraw (prng : ℤ → ℕ → ℚ) : RngState → ℚ × RngState
  | .seeded s p => (prng s p, .seeded s (p + 1))
  | .unseeded e p => (e p, .unseeded e (p + 1))

/-- All draws the generator can still produce lie in the unit interval. -/
def RngState.Bounded (prng : ℤ → ℕ → ℚ) : RngState → Prop
  | .seeded s _ => ∀ i, 0 ≤ prng s i ∧ prng s i ≤ 1
  | .unseeded e _ => ∀ i, 0 ≤ e i ∧ e i ≤ 1

/-- Draw a uniformly random index `< n` (used to model `random.sample` /
`random.choice`); the `min` clamp makes the model total, and for a
unit-interval draw it returns `⌊r·n⌋` capped at `n-1`. -/
def randIndex (prng : ℤ → ℕ → ℚ) (n : ℕ) (rng : RngState) : ℕ × RngState :=
  let d := nextDraw prng rng
  (min (n - 1) (Int.toNat ⌊d.1 * n⌋), d.2)

/-- The 12 zodiac categories (keys of `ZODIAC_NUMBERS`, in dict order). -/
inductive Zodiac where
  | shu | niu | hu | tu | lng | she | ma | yang | hou | ji | gou | zhu
deriving DecidableEq

/-- Simplified-Chinese label of a zodiac (the dict keys of `ZODIAC_NUMBERS`). -/
def zodiacName : Zodiac → String
  | .shu => "鼠" | .niu => "牛" | .hu => "虎" | .tu => "兔"
  | .lng => "龙" | .she => "蛇" | .ma => "马" | .yang => "羊"
  | .hou => "猴" | .ji => "鸡" | .gou => "狗" | .zhu => "猪"

/-- `ZODIAC_NUMBERS`: the fixed numbers owned by each zodiac. -/
def zodiacNumbers : Zodiac → List ℕ
  | .shu => [6, 18, 30, 42]
  | .niu => [5, 17, 29, 41]
  | .hu => [4, 16, 28, 40]
  | .tu => [3, 15, 27, 39]
  | .lng => [2, 14, 26, 38]
  | .she => [1, 13, 25, 37, 49]
  | .ma => [12, 24, 36, 48]
  | .yang => [11, 23, 35, 47]
  | .hou => [10, 22, 34, 46]
  | .ji => [9, 21, 33, 45]
  | .gou => [8, 20, 32, 44]
  | .zhu => [7, 19, 31, 43]

/-- `self.all_zodiacs = list(ZODIAC_NUMBERS.keys())`. -/
def allZodiacs : List Zodiac :=
  [.shu, .niu, .hu, .tu, .lng, .she, .ma, .yang, .hou, .ji, .gou, .zhu]

/-- `TRADITIONAL_TO_SIMPLIFIED.get(zodiac, zodiac)` (`normalize_zodiac`). -/
def normalizeZodiac (s : String) : String :=
  if s = "龍" then "龙"
  else if s = "馬" then "马"
  else if s = "雞" then "鸡"
  else if s = "豬" then "猪"
  else s

/-- `NUMBER_TO_ZODIAC.get(num)`: the zodiac label owning a number, if any. -/
def numberToZodiac (n : ℕ) : Option String :=
  (allZodiacs.find? (fun z => n ∈ zodiacNumbers z)).map zodiacName

/-- `ZODIAC_LIU_CHONG.get` (six clashes). -/
def liuChong (s : String) : Option String :=
  match s with
  | "鼠" => some "马" | "牛" => some "羊" | "虎" => some "猴" | "兔" => some "鸡"
  | "龙" => some "狗" | "蛇" => some "猪" | "马" => some "鼠" | "羊" => some "牛"
  | "猴" => some "虎" | "鸡" => some "兔" | "狗" => some "龙" | "猪" => some "蛇"
  | _ => none

/-- `ZODIAC_SAN_HE.get(s, [])` (three harmonies). -/
def sanHe (s : String) : List String :=
  match s with
  | "鼠" => ["龙", "猴"] | "牛" => ["蛇", "鸡"] | "虎" => ["马", "狗"]
  | "兔" => ["羊", "猪"] | "龙" => ["鼠", "猴"] | "蛇" => ["牛", "鸡"]
  | "马" => ["虎", "狗"] | "羊" => ["兔", "猪"] | "猴" => ["鼠", "龙"]
  | "鸡" => ["牛", "蛇"] | "狗" => ["虎", "马"] | "猪" => ["兔", "羊"]
  | _ => []

/-- `ZODIAC_LIU_HE.get` (six harmonies). -/
def liuHe (s : String) : Option String :=
  match s with
  | "鼠" => some "牛" | "牛" => some "鼠" | "虎" => some "猪" | "兔" => some "狗"
  | "龙" => some "鸡" | "蛇" => some "猴" | "马" => some "羊" | "羊" => some "马"
  | "猴" => some "蛇" | "鸡" => some "龙" | "狗" => some "兔" | "猪" => some "虎"
  | _ => none

/-- `ZODIAC_FIVE_ELEMENTS.get`. -/
def fiveElementOf (s : String) : Option String :=
  match s with
  | "鼠" => some "水" | "牛" => some "土" | "虎" => some "木" | "兔" => some "木"
  | "龙" => some "土" | "蛇" => some "火" | "马" => some "火" | "羊" => some "土"
  | "猴" => some "金" | "鸡" => some "金" | "狗" => some "土" | "猪" => some "水"
  | _ => none

/-- `ELEMENTS_GENERATE.get` (mutual generation). -/
def elemGenerate (s : String) : Option String :=
  match s with
  | "木" => some "火" | "火" => some "土" | "土" => some "金"
  | "金" => some "水" | "水" => some "木" | _ => none

/-- `ELEMENTS_RESTRICT.get` (mutual restriction). -/
def elemRestrict (s : String) : Option String :=
  match s with
  | "木" => some "土" | "土" => some "水" | "水" => some "火"
  | "火" => some "金" | "金" => some "木" | _ => none

/-- `RED_WAVE_NUMBERS`. -/
def redWaveNumbers : List ℕ :=
  [1, 2, 7, 8, 12, 13, 18, 19, 23, 24, 29, 30, 34, 35, 40, 45, 46]

/-- `get_color_wave`. -/
def getColorWave (n : ℕ) : String :=
  if n ∈ redWaveNumbers then "红"
  else if n % 3 = 0 then "蓝"
  else "绿"

/-- `RANDOM_PERTURBATION_RANGE`. -/
def RANDOM_PERTURBATION_RANGE : ℚ := 15

/-- `MONTE_CARLO_ITERATIONS`. -/
def MONTE_CARLO_ITERATIONS : ℕ := 100

/-- The dynamic-window table `{0: 300, 1: 200, 2: 100, 3: 50, 4: 30}`,
indexed by `period_num % 5`. -/
def windowRanges : ℕ → ℕ
  | 0 => 300
  | 1 => 200
  | 2 => 100
  | 3 => 50
  | _ => 30

/-- The normalized zodiac label of one historical record
(`self.normalize_zodiac(h.get('tema_zodiac', ''))`). -/
def normTZ (h : DrawRecord) : String :=
  normalizeZodiac h.tema_zodiac

/-- Stable descending insertion (by a `ℚ` key): the new element (which comes
earlier in the original list than everything already inserted) goes in front
of the first element whose key is not larger, hence before equal-keyed
elements that came later in the original list. -/
def insertByDesc (key : α → ℚ) (x : α) : List α → List α
  | [] => [x]
  | a :: t => if key a ≤ key x then x :: a :: t else a :: insertByDesc key x t

/-- Stable descending sort by a `ℚ` key; extensionally equal to CPython's
stable `sorted(·, key=key, reverse=True)`. -/
def sortByDesc (key : α → ℚ) (l : List α) : List α :=
  l.foldr (insertByDesc key) []

/-- Stable ascending insertion on `ℕ`. -/
def insertAsc (x : ℕ) : List ℕ → List ℕ
  | [] => [x]
  | a :: t => if x ≤ a then x :: a :: t else a :: insertAsc x t

/-- Stable ascending sort on `ℕ`; extensionally equal to Python's
`sorted(·)` on a list of ints. -/
def sortAsc (l : List ℕ) : List ℕ :=
  l.foldr insertAsc []

/-! ## The 17 dimension scorers (`prediction_engine_ultimate.py`) -/

/-- `_score_long_term_missing` (8%): how long the zodiac has been absent,
scaled against `period / 12`.  Fails (`none`) exactly when the source raises
`ZeroDivisionError` (`period == 0`). -/
def scoreLongTermMissing (history : List DrawRecord) (z : Zodiac) (period : ℕ) : Option ℚ :=
  let zodiacList := history.map normTZ
  let missingPeriods : ℕ :=
    match zodiacList.indexOf? (zodiacName z) with
    | some i => i
    | none => zodiacList.length
  let expectedGap : ℚ := (period : ℚ) / 12
  (div? (missingPeriods : ℚ) expectedGap).map (fun q => min 100 (q * 50))

/-- `_score_short_term_hot` (7%): inverse frequency in the 20 most recent
records. -/
def scoreShortTermHot (history : List DrawRecord) (z : Zodiac) : ℚ :=
  let recent20 := (history.take 20).map normTZ
  let count := recent20.count (zodiacName z)
  if count = 0 then 100 else max 0 (100 - (count : ℚ) * 15)

/-- `_score_cycle_pattern` (8%): deviation of the window frequency from the
uniform expectation `period / 12`.  Fails exactly when the source raises
(`period == 0` together with `count ≥ expected`). -/
def scoreCyclePattern (history : List DrawRecord) (z : Zodiac) (period : ℕ) : Option ℚ :=
  let zodiacList := history.map normTZ
  let count := zodiacList.count (zodiacName z)
  let expected : ℚ := (period : ℚ) / 12
  if (count : ℚ) < expected then
    (div? (expected - count) expected).map (fun q => min 100 (q * 100))
  else
    (div? ((count : ℚ) - expected) expected).map (fun q => max 0 (50 - q * 25))

/-- `_score_consecutive_penalty` (7%): stepped penalty for presence in the
last 1 / 2–3 / 4–5 records. -/
def scoreConsecutivePenalty (history : List DrawRecord) (z : Zodiac) : ℚ :=
  let recent5 := (history.take 5).map normTZ
  if zodiacName z ∈ recent5.take 1 then 0
  else if zodiacName z ∈ (recent5.drop 1).take 2 then 30
  else if zodiacName z ∈ (recent5.drop 3).take 2 then 60
  else 100

/-- `_score_markov_chain` (10%): iterates the newest-first list; counts
positions where the most recent label occurs, and how often the candidate
occupies the *next list position* (which is the chronologically *previous*
draw).  Second-order fallback as in the source. -/
def scoreMarkovChain (history : List DrawRecord) (z : Zodiac) : ℚ :=
  if history.length < 2 then 50
  else
    let zodiacList := history.map normTZ
    let lastZodiac := zodiacList.headD ""
    let pairs := zodiacList.zip zodiacList.tail
    let totalTransitions := pairs.countP (fun p => p.1 == lastZodiac)
    let transitionCount :=
      pairs.countP (fun p => p.1 == lastZodiac && p.2 == zodiacName z)
    if totalTransitions = 0 then
      let lastTwo := zodiacList.take 2
      let triples := zodiacList.zip (zodiacList.tail.zip zodiacList.tail.tail)
      let secondOrderTotal := triples.countP (fun t => [t.1, t.2.1] == lastTwo)
      let secondOrderCount :=
        triples.countP (fun t => [t.1, t.2.1] == lastTwo && t.2.2 == zodiacName z)
      if 0 < secondOrderTotal then
        (secondOrderCount : ℚ) / (secondOrderTotal : ℚ) * 100
      else 50
    else (transitionCount : ℚ) / (totalTransitions : ℚ) * 100

/-- `_fallback_periodic_score`: gap-variance estimator used by the Fourier
dimension when numpy is unavailable or the window is short. -/
def fallbackPeriodicScore (history : List DrawRecord) (z : Zodiac) : ℚ :=
  let zodiacList := (history.take 50).map normTZ
  let appearances :=
    (zodiacList.enum.filter (fun p => p.2 == zodiacName z)).map Prod.fst
  if appearances.length < 2 then 50
  else
    let gaps := (appearances.zip appearances.tail).map
      (fun p => (p.2 : ℚ) - (p.1 : ℚ))
    if gaps.isEmpty then 50
    else
      let avgGap := gaps.sum / (gaps.length : ℚ)
      let variance := (gaps.map (fun g => (g - avgGap) ^ 2)).sum / (gaps.length : ℚ)
      max 0 (100 - variance)

/-- `_score_fourier_analysis` (8%): numpy is unavailable in the modelled
environment, so every call takes the documented fallback path. -/
def scoreFourierAnalysis (history : List DrawRecord) (z : Zodiac) : ℚ :=
  fallbackPeriodicScore history z

/-- `_score_bayesian_probability` (7%): conditions on the most recent record's
(zodiac, big, odd) state; `history[i+1]` in the newest-first list. -/
def scoreBayesianProbability (history : List DrawRecord) (z : Zodiac) : ℚ :=
  match history with
  | [] => 50
  | lastEntry :: _ =>
    let lastZodiac := normTZ lastEntry
    let lastBig := decide (24 < lastEntry.tema)
    let lastOdd := decide (lastEntry.tema % 2 = 1)
    let pairs := history.zip history.tail
    let matchesCond := fun (p : DrawRecord × DrawRecord) =>
      normTZ p.1 == lastZodiac && decide (24 < p.1.tema) == lastBig &&
        decide (p.1.tema % 2 = 1) == lastOdd
    let totalSimilar := pairs.countP matchesCond
    let matchingCount :=
      pairs.countP (fun p => matchesCond p && normTZ p.2 == zodiacName z)
    if totalSimilar = 0 then 50
    else (matchingCount : ℚ) / (totalSimilar : ℚ) * 100

/-- `_score_number_hot_cold` (5%): frequency of the zodiac's numbers among
the recent temas versus `len(tema_list) * len(zodiac_nums) / 49`.  Fails
(`none`) exactly when the source raises `ZeroDivisionError`: on an empty
window the expectation is `0` and the else-branch divides by it. -/
def scoreNumberHotCold (history : List DrawRecord) (z : Zodiac) : Option ℚ :=
  let temaList := (history.take 50).map DrawRecord.tema
  let zodiacNums := zodiacNumbers z
  let count := temaList.countP (fun t => t ∈ zodiacNums)
  let expected : ℚ := (temaList.length : ℚ) * (zodiacNums.length : ℚ) / 49
  if (count : ℚ) < expected then
    (div? (expected - count) expected).map (fun q => min 100 (q * 100))
  else
    (div? ((count : ℚ) - expected) expected).map (fun q => max 0 (50 - q * 30))

/-- `_score_tail_trend` (5%): cold units digits of the zodiac's numbers. -/
def scoreTailTrend (history : List DrawRecord) (z : Zodiac) : ℚ :=
  let recent20 := (history.take 20).map DrawRecord.tema
  let zodiacTails := ((zodiacNumbers z).map (· % 10)).dedup
  let totalScore : ℚ := (zodiacTails.map (fun tail =>
    let count := (recent20.map (· % 10)).count tail
    max 0 ((10 : ℚ) - (count : ℚ) * 2))).sum
  min 100 (totalScore / (zodiacTails.length : ℚ) * 10)

/-- `_score_big_small` (5%): contrarian big/small composition check.  The
source computes `small_count = 20 - big_count` with the literal 20 even on
short histories. -/
def scoreBigSmall (history : List DrawRecord) (z : Zodiac) : ℚ :=
  let recent20 := (history.take 20).map DrawRecord.tema
  let bigCount : ℤ := recent20.countP (fun t => 24 < t)
  let smallCount : ℤ := 20 - bigCount
  let nums := zodiacNumbers z
  let zodiacBig : ℤ := nums.countP (fun n => 24 < n)
  let zodiacSmall : ℤ := (nums.length : ℤ) - zodiacBig
  if bigCount > smallCount ∧ zodiacSmall > zodiacBig then 80
  else if smallCount > bigCount ∧ zodiacBig > zodiacSmall then 80
  else 50

/-- `_score_odd_even` (5%): contrarian odd/even composition check; again the
literal `20 - odd_count`. -/
def scoreOddEven (history : List DrawRecord) (z : Zodiac) : ℚ :=
  let recent20 := (history.take 20).map DrawRecord.tema
  let oddCount : ℤ := recent20.countP (fun t => t % 2 = 1)
  let evenCount : ℤ := 20 - oddCount
  let nums := zodiacNumbers z
  let zodiacOdd : ℤ := nums.countP (fun n => n % 2 = 1)
  let zodiacEven : ℤ := (nums.length : ℤ) - zodiacOdd
  if oddCount > evenCount ∧ zodiacEven > zodiacOdd then 80
  else if evenCount > oddCount ∧ zodiacOdd > zodiacEven then 80
  else 50

/-- `_score_zodiac_relationship` (5%): clash/harmony table lookups against the
most recent record's label. -/
def scoreZodiacRelationship (history : List DrawRecord) (z : Zodiac) : ℚ :=
  match history with
  | [] => 50
  | h :: _ =>
    let lastZodiac := normTZ h
    let s1 : ℚ := 50 - (if liuChong lastZodiac = some (zodiacName z) then 20 else 0)
    let s2 : ℚ := s1 + (if zodiacName z ∈ sanHe lastZodiac then 30 else 0)
    let s3 : ℚ := s2 + (if liuHe lastZodiac = some (zodiacName z) then 40 else 0)
    max 0 (min 100 s3)

/-- `_score_five_elements` (5%): generate/restrict lookups against the most
recent record's element. -/
def scoreFiveElements (history : List DrawRecord) (z : Zodiac) : ℚ :=
  match history with
  | [] => 50
  | h :: _ =>
    let lastElement := (fiveElementOf (normTZ h)).getD "土"
    let currentElement := (fiveElementOf (zodiacName z)).getD "土"
    let s1 : ℚ := 50 + (if elemGenerate lastElement = some currentElement then 40 else 0)
    let s2 : ℚ := s1 - (if elemRestrict lastElement = some currentElement then 30 else 0)
    max 0 (min 100 s2)

/-- `_score_color_wave` (5%): cold-wave bonus per wave of the zodiac's
numbers (the source's unused `min_wave` binding is omitted). -/
def scoreColorWave (history : List DrawRecord) (z : Zodiac) : ℚ :=
  let recent15 := (history.take 15).map DrawRecord.tema
  let waves := recent15.map getColorWave
  let maxWave : ℕ := if waves = [] then 5 else (waves.dedup.map waves.count).foldr max 0
  let zodiacWaveList := (zodiacNumbers z).map getColorWave
  let totalScore : ℚ := (zodiacWaveList.dedup.map (fun w =>
    let recentCount := waves.count w
    let waveScore : ℚ := max 0 (((maxWave : ℚ) - (recentCount : ℚ)) * 10)
    waveScore * (zodiacWaveList.count w : ℚ))).sum
  min 100 (totalScore / ((zodiacNumbers z).length : ℚ))

/-- The cumulative weighted-random choice inside one Monte-Carlo iteration
(the `for z, prob ... if rand_val <= cumulative: break` loop). -/
def mcChoose : List (Zodiac × ℚ) → ℚ → ℚ → Option Zodiac
  | [], _, _ => none
  | (w, p) :: rest, r, cum =>
    let cum' := cum + p
    if r ≤ cum' then some w else mcChoose rest r cum'

/-- One Monte-Carlo iteration: draw, pick by cumulative weight, count hits
of the analysed zodiac. -/
def mcStep (prng : ℤ → ℕ → ℚ) (probsN : List (Zodiac × ℚ)) (z : Zodiac)
    (acc : ℕ × RngState) (_iter : ℕ) : ℕ × RngState :=
  let d := nextDraw prng acc.2
  match mcChoose probsN d.1 0 with
  | some w => if w = z then (acc.1 + 1, d.2) else (acc.1, d.2)
  | none => (acc.1, d.2)

/-- `_score_monte_carlo` (5%): Laplace-smoothed empirical distribution,
`MONTE_CARLO_ITERATIONS` weighted draws from the shared generator. -/
def scoreMonteCarlo (prng : ℤ → ℕ → ℚ) (history : List DrawRecord) (z : Zodiac)
    (rng : RngState) : ℚ × RngState :=
  if history.length < 10 then (50, rng)
  else
    let zodiacList := history.map normTZ
    let totalCount := zodiacList.length
    let probabilities := allZodiacs.map (fun w =>
      (w, ((zodiacList.count (zodiacName w) : ℚ) + 1) / ((totalCount : ℚ) + 12)))
    let probSum := (probabilities.map Prod.snd).sum
    let probsN := probabilities.map (fun p => (p.1, p.2 / probSum))
    let res := (List.range MONTE_CARLO_ITERATIONS).foldl (mcStep prng probsN z) (0, rng)
    ((res.1 : ℚ) / (MONTE_CARLO_ITERATIONS : ℚ) * 100, res.2)

/-- `_score_repeat_penalty` (3%): stepped penalty by how often this zodiac was
recently recommended. -/
def scoreRepeatPenalty (z : Zodiac) (recentPredictions : List String) : ℚ :=
  if recentPredictions.isEmpty then 100
  else
    match recentPredictions.count (zodiacName z) with
    | 0 => 100
    | 1 => 60
    | 2 => 30
    | _ => 0

/-- The local `is_prime` of `_score_prime_composite` (trial division up to
`int(n ** 0.5)`, exact for the ball-sized naturals that occur). -/
def pyIsPrime (n : ℕ) : Bool :=
  if n < 2 then false
  else if n = 2 then true
  else if n % 2 = 0 then false
  else ((List.range' 3 (Nat.sqrt n + 1 - 3)).filter (· % 2 = 1)).all
    (fun i => n % i ≠ 0)

/-- `_score_prime_composite` (2%): contrarian prime/composite composition
check; the literal `15 - prime_count`. -/
def scorePrimeComposite (history : List DrawRecord) (z : Zodiac) : ℚ :=
  let recent15 := (history.take 15).map DrawRecord.tema
  let primeCount : ℤ := recent15.countP pyIsPrime
  let compositeCount : ℤ := 15 - primeCount
  let nums := zodiacNumbers z
  let zodiacPrime : ℤ := nums.countP pyIsPrime
  let zodiacComposite : ℤ := (nums.length : ℤ) - zodiacPrime
  if primeCount > compositeCount ∧ zodiacComposite > zodiacPrime then 80
  else if compositeCount > primeCount ∧ zodiacPrime > zodiacComposite then 80
  else 50

/-! ## Score aggregation (`_calculate_comprehensive_score`) -/

/-- The per-candidate score dictionary: each dimension field holds the
*weighted* contribution (raw score × dimension weight), exactly like the
`scores` dict of the source, plus the random perturbation and the total. -/
structure ScoreBreakdown where
  long_term_missing : ℚ
  short_term_hot : ℚ
  cycle_pattern : ℚ
  consecutive_penalty : ℚ
  markov_chain : ℚ
  fourier_analysis : ℚ
  bayesian_probability : ℚ
  number_hot_cold : ℚ
  tail_trend : ℚ
  big_small : ℚ
  odd_even : ℚ
  zodiac_relationship : ℚ
  five_elements : ℚ
  color_wave : ℚ
  monte_carlo : ℚ
  repeat_penalty : ℚ
  prime_composite : ℚ
  random_factor : ℚ
  total_score : ℚ

/-- `_calculate_comprehensive_score`: all 17 weighted dimensions plus the
`random.uniform(-15, 15)` perturbation; the total is the sum of all entries.
Returns `none` exactly when a scorer raises (`ZeroDivisionError`). -/
def calcComprehensiveScore (prng : ℤ → ℕ → ℚ) (history : List DrawRecord)
    (z : Zodiac) (period : ℕ) (recentPredictions : List String)
    (rng : RngState) : Option (ScoreBreakdown × RngState) := do
  let ltm ← scoreLongTermMissing history z period
  let cyc ← scoreCyclePattern history z period
  let nhc ← scoreNumberHotCold history z
  let mcr := scoreMonteCarlo prng history z rng
  let mc := mcr.1
  let d := nextDraw prng mcr.2
  let rng2 := d.2
  let randomFactor := -RANDOM_PERTURBATION_RANGE +
    (RANDOM_PERTURBATION_RANGE - -RANDOM_PERTURBATION_RANGE) * d.1
  let sLtm := ltm * 0.08
  let sSth := scoreShortTermHot history z * 0.07
  let sCyc := cyc * 0.08
  let sCon := scoreConsecutivePenalty history z * 0.07
  let sMar := scoreMarkovChain history z * 0.10
  let sFou := scoreFourierAnalysis history z * 0.08
  let sBay := scoreBayesianProbability history z * 0.07
  let sNhc := nhc * 0.05
  let sTai := scoreTailTrend history z * 0.05
  let sBig := scoreBigSmall history z * 0.05
  let sOdd := scoreOddEven history z * 0.05
  let sRel := scoreZodiacRelationship history z * 0.05
  let sFiv := scoreFiveElements history z * 0.05
  let sCol := scoreColorWave history z * 0.05
  let sMc := mc * 0.05
  let sRep := scoreRepeatPenalty z recentPredictions * 0.03
  let sPri := scorePrimeComposite history z * 0.02
  let total := sLtm + sSth + sCyc + sCon + sMar + sFou + sBay + sNhc + sTai +
    sBig + sOdd + sRel + sFiv + sCol + sMc + sRep + sPri + randomFactor
  some ({ long_term_missing := sLtm, short_term_hot := sSth,
          cycle_pattern := sCyc, consecutive_penalty := sCon,
          markov_chain := sMar, fourier_analysis := sFou,
          bayesian_probability := sBay, number_hot_cold := sNhc,
          tail_trend := sTai, big_small := sBig, odd_even := sOdd,
          zodiac_relationship := sRel, five_elements := sFiv,
          color_wave := sCol, monte_carlo := sMc, repeat_penalty := sRep,
          prime_composite := sPri, random_factor := randomFactor,
          total_score := total }, rng2)

/-- The `for zodiac in self.all_zodiacs` scoring loop of
`predict_top2_zodiac`, threading the shared generator. -/
def scoreAll (prng : ℤ → ℕ → ℚ) (history : List DrawRecord) (period : ℕ)
    (recentPredictions : List String) :
    List Zodiac → RngState → Option (List (Zodiac × ScoreBreakdown) × RngState)
  | [], rng => some ([], rng)
  | z :: zs, rng => do
    let (s, rng') ← calcComprehensiveScore prng history z period recentPredictions rng
    let (rest, rng'') ← scoreAll prng history period recentPredictions zs rng'
    some ((z, s) :: rest, rng'')

/-- `_get_recent_predictions`: the flattened, normalized zodiac pair of each
of the last 5 emitted predictions (newest first). -/
def recentPredictionsOf (predHistory : List (String × String)) : List String :=
  (predHistory.take 5).flatMap
    (fun p => [normalizeZodiac p.1, normalizeZodiac p.2])

/-- The result dictionary of `predict_top2_zodiac`.  `analysis` holds the
full `zodiac_scores` table (which contains the two selected breakdowns as
entries, like the source's `analysis` dict). -/
structure Top2Result where
  zodiac1 : Zodiac
  zodiac2 : Zodiac
  numbers1 : List ℕ
  numbers2 : List ℕ
  score1 : ℚ
  score2 : ℚ
  analysis : List (Zodiac × ScoreBreakdown)
  period : ℕ

/-- `random.sample(pop, 2)`: two distinct elements drawn without
replacement (two index draws, the second over the remaining list). -/
def sample2 (prng : ℤ → ℕ → ℚ) (pop : List Zodiac) (rng : RngState) :
    (Zodiac × Zodiac) × RngState :=
  let i := randIndex prng pop.length rng
  let a := pop.getD i.1 .shu
  let rest := pop.eraseIdx i.1
  let j := randIndex prng rest.length i.2
  ((a, rest.getD j.1 .shu), j.2)

/-- The body of `predict_top2_zodiac` after the generator has been seeded:
fetch the window, fall back to a random distinct pair on empty history,
otherwise score all 12 candidates and keep the stable descending top 2.
(The final `random.seed()` reset is applied by `predictTop2`.) -/
def predictTop2Core (prng : ℤ → ℕ → ℚ) (store : List DrawRecord)
    (predHistory : List (String × String)) (dynamicPeriod : ℕ) (seedv : ℤ) :
    Option Top2Result :=
  let rng : RngState := .seeded seedv 0
  let history := store.take dynamicPeriod
  if history.isEmpty then
    let pair := (sample2 prng allZodiacs rng).1
    some { zodiac1 := pair.1, zodiac2 := pair.2,
           numbers1 := zodiacNumbers pair.1, numbers2 := zodiacNumbers pair.2,
           score1 := 50, score2 := 45, analysis := [], period := 0 }
  else do
    let recent := recentPredictionsOf predHistory
    let (scored, _) ← scoreAll prng history dynamicPeriod recent allZodiacs rng
    let sortedZodiacs := sortByDesc (fun p => p.2.total_score) scored
    match sortedZodiacs with
    | (z1, a1) :: (z2, a2) :: _ =>
      some { zodiac1 := z1, zodiac2 := z2,
             numbers1 := zodiacNumbers z1, numbers2 := zodiacNumbers z2,
             score1 := a1.total_score, score2 := a2.total_score,
             analysis := scored, period := dynamicPeriod }
    | _ => none

/-- The dynamic window length of `predict_top2_zodiac`: from the period id's
last three digits when supplied, else the capped `period` argument. -/
def top2DynamicPeriod (expect : Option ℕ) (period : ℕ) : ℕ :=
  match expect with
  | some n => windowRanges ((n % 1000) % 5)
  | none => min period 300

/-- The seed of `predict_top2_zodiac`'s initial `random.seed(...)`:
`int(expect) * 1000 + dynamic_period` when a period id is supplied, else the
wall clock. -/
def top2Seed (expect : Option ℕ) (period : ℕ) (now : ℤ) : ℤ :=
  match expect with
  | some n => (n : ℤ) * 1000 + top2DynamicPeriod expect period
  | none => now

/-- `predict_top2_zodiac(period, expect)`.  The incoming generator state
`rng0` is overwritten by the initial `random.seed(...)` (deterministic from
the period id, else from the wall clock `now`); the final `random.seed()`
leaves a freshly entropy-seeded state. -/
def predictTop2 (prng : ℤ → ℕ → ℚ) (store : List DrawRecord)
    (predHistory : List (String × String)) (period : ℕ) (expect : Option ℕ)
    (now : ℤ) (entropy : ℕ → ℚ) (rng0 : RngState) :
    Option (Top2Result × RngState) :=
  let _ := rng0
  (predictTop2Core prng store predHistory (top2DynamicPeriod expect period)
      (top2Seed expect period now)).map
    (fun r => (r, RngState.unseeded entropy 0))

/-! ## The numeric 3-in-3 group predictor (`PredictionEngine.predict_3in3`,
`bot.py`) -/

/-- One predicted group: the 3 numbers plus the display score dict. -/
abbrev BallGroup := List ℕ × List (ℕ × ℚ)

/-- The in-range guard `1 <= num <= 49` applied to a record's `open_code`. -/
def validBalls (oc : List ℕ) : List ℕ :=
  oc.filter (fun n => 1 ≤ n ∧ n ≤ 49)

/-- Factor 1 (40%): `+0.4` per occurrence of the number among the seven
balls of the most recent 100 records. -/
def freqScore (history : List DrawRecord) (n : ℕ) : ℚ :=
  0.4 * (((history.take 100).flatMap (fun r => validBalls r.open_code)).count n : ℚ)

/-- The set of balls seen in the most recent 20 records. -/
def recentBalls (history : List DrawRecord) : List ℕ :=
  (history.take 20).flatMap (fun r => validBalls r.open_code)

/-- Factor 2 (30%): `+30` for a number absent from the recent 20 records,
else `(idx/20)*30` for the index of its most recent appearance. -/
def missScore (history : List DrawRecord) (n : ℕ) : ℚ :=
  if n ∉ recentBalls history then 30
  else (((history.take 20).findIdx (fun r => n ∈ r.open_code) : ℚ) / 20) * 30

/-- The zodiac labels of all balls of the most recent 30 records. -/
def zodiacListOf (history : List DrawRecord) : List String :=
  ((history.take 30).flatMap (fun r => validBalls r.open_code)).filterMap numberToZodiac

/-- Factor 3 (30%): zodiac-balance bonus against `len(zodiac_list)/12`. -/
def zodiacBalanceScore (history : List DrawRecord) (n : ℕ) : ℚ :=
  let zl := zodiacListOf history
  let expected : ℚ := if zl.isEmpty then 1 else (zl.length : ℚ) / 12
  match numberToZodiac n with
  | none => 0
  | some z =>
    let freq := zl.count z
    if (freq : ℚ) < expected then 30
    else max 0 ((expected - freq) / expected * 30)

/-- The 49 `random.uniform(-5, 5)` perturbation draws (`for num in
range(1, 50)`), consumed from the shared generator in order. -/
def drawPerturbations (prng : ℤ → ℕ → ℚ) : ℕ → RngState → List ℚ × RngState
  | 0, rng => ([], rng)
  | k + 1, rng =>
    let d := nextDraw prng rng
    let rest := drawPerturbations prng k d.2
    ((-5 + (5 - -5) * d.1) :: rest.1, rest.2)

/-- The final `all_scores[num]` value: the three factors plus the
perturbation drawn for this number. -/
def ballScore (history : List DrawRecord) (perturb : List ℚ) (n : ℕ) : ℚ :=
  freqScore history n + missScore history n + zodiacBalanceScore history n +
    perturb.getD (n - 1) 0

/-- First-occurrence deduplication: the insertion order of a Python dict fed
these keys in this order. -/
def firstOccs (l : List ℕ) : List ℕ :=
  l.foldl (fun acc a => if a ∈ acc then acc else acc ++ [a]) []

/-- `[1, ..., 49]`. -/
def nums1to49 : List ℕ := List.range' 1 49

/-- The iteration order of the `all_scores` dict: balls in order of first
appearance in the recent 100 records (factor 1), then the remaining numbers
of `1..49` in order (the `range(1, 50)` loops). -/
def keysInOrder (history : List DrawRecord) : List ℕ :=
  let f := firstOccs ((history.take 100).flatMap (fun r => validBalls r.open_code))
  f ++ nums1to49.filter (fun n => n ∉ f)

/-- `sorted(all_scores.items(), key=lambda x: x[1], reverse=True)`. -/
def sortedNumsOf (history : List DrawRecord) (perturb : List ℚ) : List (ℕ × ℚ) :=
  sortByDesc Prod.snd ((keysInOrder history).map (fun n => (n, ballScore history perturb n)))

/-- The display score dict `{top3[0]: 95-5i, top3[1]: 85-5i, top3[2]: 75-5i}`. -/
def groupScores (top3 : List ℕ) (groupIdx : ℕ) : List (ℕ × ℚ) :=
  [(top3.getD 0 0, 95 - (groupIdx : ℚ) * 5),
   (top3.getD 1 0, 85 - (groupIdx : ℚ) * 5),
   (top3.getD 2 0, 75 - (groupIdx : ℚ) * 5)]

/-- The `while len(selected) < 3` backfill loop: a random remaining
candidate, or a random `randint(1, 49)` when the pool is exhausted.  The
fuel is the number of missing elements (each iteration appends exactly
one). -/
def backfill (prng : ℤ → ℕ → ℚ) (candidates : List (ℕ × ℚ)) :
    ℕ → List ℕ → RngState → List ℕ × RngState
  | 0, selected, rng => (selected, rng)
  | fuel + 1, selected, rng =>
    if selected.length < 3 then
      let remaining := (candidates.map Prod.fst).filter (fun n => n ∉ selected)
      if remaining.isEmpty then
        let i := randIndex prng 49 rng
        backfill prng candidates fuel (selected ++ [1 + i.1]) i.2
      else
        let i := randIndex prng remaining.length rng
        backfill prng candidates fuel (selected ++ [remaining.getD i.1 0]) i.2
    else (selected, rng)

/-- One group of the `for group_idx in range(num_groups)` loop. -/
def buildGroup (prng : ℤ → ℕ → ℚ) (sortedNums : List (ℕ × ℚ))
    (numGroups groupIdx : ℕ) (rng : RngState) : BallGroup × RngState :=
  if numGroups = 1 then
    let top3 := (sortedNums.take 3).map Prod.fst
    ((top3, groupScores top3 groupIdx), rng)
  else
    let candidates := sortedNums.take (min 30 sortedNums.length)
    let selected := (List.range 3).filterMap
      (fun i => (candidates.get? (groupIdx * 3 + i)).map Prod.fst)
    let bf := backfill prng candidates (3 - selected.length) selected rng
    let top3 := sortAsc bf.1
    ((top3, groupScores top3 groupIdx), bf.2)

/-- The group loop over `range(num_groups)`, threading the generator. -/
def buildGroupsAux (prng : ℤ → ℕ → ℚ) (sortedNums : List (ℕ × ℚ))
    (numGroups : ℕ) : List ℕ → RngState → List BallGroup × RngState
  | [], rng => ([], rng)
  | gi :: rest, rng =>
    let g := buildGroup prng sortedNums numGroups gi rng
    let gs := buildGroupsAux prng sortedNums numGroups rest g.2
    (g.1 :: gs.1, gs.2)

/-- `random.sample(range(1, 50), 3)`: three distinct numbers drawn without
replacement. -/
def sample3balls (prng : ℤ → ℕ → ℚ) (rng : RngState) : List ℕ × RngState :=
  let i1 := randIndex prng nums1to49.length rng
  let a := nums1to49.getD i1.1 0
  let l1 := nums1to49.eraseIdx i1.1
  let i2 := randIndex prng l1.length i1.2
  let b := l1.getD i2.1 0
  let l2 := l1.eraseIdx i2.1
  let i3 := randIndex prng l2.length i2.2
  ([a, b, l2.getD i3.1 0], i3.2)

/-- The empty-history fallback loop: `sorted(random.sample(range(1,50), 3))`
per group, each number displayed with score 50. -/
def buildRandomGroups (prng : ℤ → ℕ → ℚ) : List ℕ → RngState → List BallGroup × RngState
  | [], rng => ([], rng)
  | _ :: rest, rng =>
    let raw := sample3balls prng rng
    let top3 := sortAsc raw.1
    let gs := buildRandomGroups prng rest raw.2
    ((top3, [(top3.getD 0 0, 50), (top3.getD 1 0, 50), (top3.getD 2 0, 50)]) :: gs.1, gs.2)

/-- The dynamic window length of `predict_3in3`: from the period id's last
three digits when supplied, else the fixed 100. -/
def threeDynamicPeriod (expect : Option ℕ) : ℕ :=
  match expect with
  | some n => windowRanges ((n % 1000) % 5)
  | none => 100

/-- The seed of `predict_3in3`'s initial `random.seed(...)`: from the period
id and group count when supplied, else the wall clock. -/
def threeSeed (expect : Option ℕ) (numGroups : ℕ) (now : ℤ) : ℤ :=
  match expect with
  | some n => (n : ℤ) * 100 + numGroups
  | none => now

/-- `predict_3in3(num_groups, expect)`.  Note: on the empty-history path the
source returns *without* the final `random.seed()` reset, so the seeded
state (positions advanced by the fallback draws) leaks out. -/
def predict3in3 (prng : ℤ → ℕ → ℚ) (store : List DrawRecord) (numGroups : ℕ)
    (expect : Option ℕ) (now : ℤ) (entropy : ℕ → ℚ) (rng0 : RngState) :
    List BallGroup × RngState :=
  let _ := rng0
  let dp := threeDynamicPeriod expect
  let rng : RngState := .seeded (threeSeed expect numGroups now) 0
  let history := store.take dp
  if history.isEmpty then
    buildRandomGroups prng (List.range numGroups) rng
  else
    let pr := drawPerturbations prng 49 rng
    let sortedNums := sortedNumsOf history pr.1
    let gs := (buildGroupsAux prng sortedNums numGroups (List.range numGroups) pr.2).1
    (gs, RngState.unseeded entropy 0)

/-! ## Claim-side reference definitions and concrete fixtures -/

/-- Modelled from the claim's words (C4), for comparison with
`scoreMarkovChain`: 100 × the probability that the candidate *immediately
follows* (chronologically) the most recent observed category, counting
in-window transitions out of that category; second-order fallback
conditioned on the most recent pair when the first-order source was never
observed; neutral 50 when neither order has data or the window has fewer
than 2 records. -/
def markovSpecScore (history : List DrawRecord) (z : Zodiac) : ℚ :=
  if history.length < 2 then 50
  else
    let zodiacList := history.map normTZ
    let lastZodiac := zodiacList.headD ""
    let chrono := zodiacList.reverse
    let pairs := chrono.zip chrono.tail
    let total := pairs.countP (fun p => p.1 == lastZodiac)
    let cnt := pairs.countP (fun p => p.1 == lastZodiac && p.2 == zodiacName z)
    if total = 0 then
      let triples := chrono.zip (chrono.tail.zip chrono.tail.tail)
      let lastPairChrono := ((zodiacList.take 2).getLastD "", lastZodiac)
      let soTotal := triples.countP (fun t => (t.1, t.2.1) == lastPairChrono)
      let soCnt := triples.countP
        (fun t => (t.1, t.2.1) == lastPairChrono && t.2.2 == zodiacName z)
      if 0 < soTotal then (soCnt : ℚ) / (soTotal : ℚ) * 100 else 50
    else (cnt : ℚ) / (total : ℚ) * 100

/-- A degenerate pseudo-random function: every draw is 1/2. -/
def prngHalf : ℤ → ℕ → ℚ := fun _ _ => 1 / 2

/-- A degenerate entropy source: every draw is 1/2. -/
def entropyHalf : ℕ → ℚ := fun _ => 1 / 2

/-- Shorthand for a history record with the given tema and zodiac label. -/
def mkRec (e : ℕ) (oc : List ℕ) (t : ℕ) (tz : String) : DrawRecord :=
  { expect := e, open_code := oc, tema := t, tema_zodiac := tz }

/-- Four-record window (newest first) in which 牛 never appears. -/
def histShu4 : List DrawRecord :=
  [mkRec 4 [6] 6 "鼠", mkRec 3 [18] 18 "鼠", mkRec 2 [30] 30 "鼠",
   mkRec 1 [42] 42 "鼠"]

/-- Four-record window (newest first): 鼠, 牛, 鼠, 虎.
Chronologically 虎 → 鼠 → 牛 → 鼠. -/
def histMarkov : List DrawRecord :=
  [mkRec 4 [6] 6 "鼠", mkRec 3 [5] 5 "牛", mkRec 2 [18] 18 "鼠",
   mkRec 1 [4] 4 "虎"]

/-- One-record store for the window-size counterexample. -/
def storeOne : List DrawRecord := [mkRec 1 [6, 18, 30, 42, 5, 17, 29] 6 "鼠"]

/-- One-record store for the group-sorting counterexample: the seven balls
1..7 were drawn, so every number of the five zodiacs 马/羊/猴/鸡/狗 gets the
full missing and balance bonuses. -/
def storeSeven : List DrawRecord := [mkRec 1 [1, 2, 3, 4, 5, 6, 7] 7 "猪"]

/-- A pseudo-random function giving the perturbation draws +3 to ball 8,
+4 to ball 44 and +5 to ball 48 (draw `i` of the seeded stream perturbs
ball `i+1`), and 0 to every other ball. -/
def prngBump : ℤ → ℕ → ℚ := fun _ i =>
  if i = 7 then 4 / 5 else if i = 43 then 9 / 10 else if i = 47 then 1 else 1 / 2

/-- The 49 perturbation values `-5 + 10·prngBump(·, i)` drawn by
`predict_3in3` under `prngBump` (ball `i+1` gets entry `i`). -/
def perturbLit : List ℚ := [0, 0, 0, 0, 0, 0, 0, 3, 0, 0, 0, 0, 0, 0, 0, 0, 0, 0, 0, 0, 0, 0, 0, 0, 0, 0, 0, 0, 0, 0, 0, 0, 0, 0, 0, 0, 0, 0, 0, 0, 0, 0, 0, 4, 0, 0, 0, 5, 0]

/-- The `all_scores` table over `storeSeven` under `prngBump`, in dict
iteration order: balls 1–7 get only the 0.4 frequency credit, every number
of the five zodiacs missing from the record gets 30 + 30 (plus its
perturbation), the rest 30. -/
def itemsLit : List (ℕ × ℚ) := [(1, 0.4), (2, 0.4), (3, 0.4), (4, 0.4), (5, 0.4), (6, 0.4), (7, 0.4), (8, 63), (9, 60), (10, 60), (11, 60), (12, 60), (13, 30), (14, 30), (15, 30), (16, 30), (17, 30), (18, 30), (19, 30), (20, 60), (21, 60), (22, 60), (23, 60), (24, 60), (25, 30), (26, 30), (27, 30), (28, 30), (29, 30), (30, 30), (31, 30), (32, 60), (33, 60), (34, 60), (35, 60), (36, 60), (37, 30), (38, 30), (39, 30), (40, 30), (41, 30), (42, 30), (43, 30), (44, 64), (45, 60), (46, 60), (47, 60), (48, 65), (49, 30)]

/-- `itemsLit` stably sorted by score, descending. -/
def sortedLit : List (ℕ × ℚ) := [(48, 65), (44, 64), (8, 63), (9, 60), (10, 60), (11, 60), (12, 60), (20, 60), (21, 60), (22, 60), (23, 60), (24, 60), (32, 60), (33, 60), (34, 60), (35, 60), (36, 60), (45, 60), (46, 60), (47, 60), (13, 30), (14, 30), (15, 30), (16, 30), (17, 30), (18, 30), (19, 30), (25, 30), (26, 30), (27, 30), (28, 30), (29, 30), (30, 30), (31, 30), (37, 30), (38, 30), (39, 30), (40, 30), (41, 30), (42, 30), (43, 30), (49, 30), (1, 0.4), (2, 0.4), (3, 0.4), (4, 0.4), (5, 0.4), (6, 0.4), (7, 0.4)]


/-! ## Sorting lemmas -/

theorem insertByDesc_perm (key : α → ℚ) (x : α) (l : List α) :
    (insertByDesc key x l).Perm (x :: l) := by
  induction l with
  | nil => exact List.Perm.refl _
  | cons a t ih =>
    unfold insertByDesc
    by_cases h : key a ≤ key x
    · simp [h]
    · simp only [if_neg h]
      exact (ih.cons a).trans (List.Perm.swap x a t)

theorem sortByDesc_perm (key : α → ℚ) (l : List α) :
    (sortByDesc key l).Perm l := by
  induction l with
  | nil => exact List.Perm.refl _
  | cons a t ih =>
    exact (insertByDesc_perm key a _).trans (ih.cons a)

theorem insertByDesc_pairwise (key : α → ℚ) (x : α) (l : List α)
    (h : l.Pairwise (fun a b => key b ≤ key a)) :
    (insertByDesc key x l).Pairwise (fun a b => key b ≤ key a) := by
  induction l with
  | nil => simp [insertByDesc]
  | cons a t ih =>
    rcases List.pairwise_cons.1 h with ⟨ha, ht⟩
    unfold insertByDesc
    by_cases hc : key a ≤ key x
    · rw [if_pos hc]
      refine List.pairwise_cons.2 ⟨?_, h⟩
      intro y hy
      rcases List.mem_cons.1 hy with rfl | hyt
      · exact hc
      · exact le_trans (ha y hyt) hc
    · rw [if_neg hc]
      refine List.pairwise_cons.2 ⟨?_, ih ht⟩
      intro y hy
      have hy' := (insertByDesc_perm key x t).mem_iff.1 hy
      rcases List.mem_cons.1 hy' with rfl | hyt
      · exact le_of_lt (lt_of_not_le hc)
      · exact ha y hyt

theorem sortByDesc_pairwise (key : α → ℚ) (l : List α) :
    (sortByDesc key l).Pairwise (fun a b => key b ≤ key a) := by
  induction l with
  | nil => simp [sortByDesc]
  | cons a t ih => exact insertByDesc_pairwise key a _ ih

theorem insertAsc_perm (x : ℕ) (l : List ℕ) :
    (insertAsc x l).Perm (x :: l) := by
  induction l with
  | nil => exact List.Perm.refl _
  | cons a t ih =>
    unfold insertAsc
    by_cases h : x ≤ a
    · simp [h]
    · simp only [if_neg h]
      exact (ih.cons a).trans (List.Perm.swap x a t)

theorem sortAsc_perm (l : List ℕ) : (sortAsc l).Perm l := by
  induction l with
  | nil => exact List.Perm.refl _
  | cons a t ih =>
    exact (insertAsc_perm a _).trans (ih.cons a)

theorem insertAsc_sorted (x : ℕ) (l : List ℕ)
    (h : List.Sorted (· ≤ ·) l) : List.Sorted (· ≤ ·) (insertAsc x l) := by
  induction l with
  | nil => simp [insertAsc]
  | cons a t ih =>
    rcases List.pairwise_cons.1 h with ⟨ha, ht⟩
    unfold insertAsc
    by_cases hc : x ≤ a
    · rw [if_pos hc]
      refine List.pairwise_cons.2 ⟨?_, h⟩
      intro y hy
      rcases List.mem_cons.1 hy with rfl | hyt
      · exact hc
      · exact le_trans hc (ha y hyt)
    · rw [if_neg hc]
      refine List.pairwise_cons.2 ⟨?_, ih ht⟩
      intro y hy
      have hy' := (insertAsc_perm x t).mem_iff.1 hy
      rcases List.mem_cons.1 hy' with rfl | hyt
      · exact le_of_lt (lt_of_not_le hc)
      · exact ha y hyt

theorem sortAsc_sorted (l : List ℕ) : List.Sorted (· ≤ ·) (sortAsc l) := by
  induction l with
  | nil => simp [sortAsc, List.Sorted]
  | cons a t ih => exact insertAsc_sorted a _ ih

/-! ## Totality of the fallible scorers on the engine's call pattern -/

theorem div?_of_ne (a : ℚ) {b : ℚ} (hb : b ≠ 0) : div? a b = some (a / b) := by
  simp [div?, hb]

theorem zodiacNumbers_length_pos (z : Zodiac) : 0 < (zodiacNumbers z).length := by
  cases z <;> simp [zodiacNumbers]

theorem scoreLongTermMissing_eq (history : List DrawRecord) (z : Zodiac)
    {period : ℕ} (hp : 0 < period) :
    ∃ v, scoreLongTermMissing history z period = some v := by
  have h12 : ((period : ℚ) / 12) ≠ 0 := by
    have : (0 : ℚ) < (period : ℚ) := by exact_mod_cast hp
    positivity
  simp only [scoreLongTermMissing]
  rw [div?_of_ne _ h12]
  exact ⟨_, rfl⟩

theorem scoreCyclePattern_eq (history : List DrawRecord) (z : Zodiac)
    {period : ℕ} (hp : 0 < period) :
    ∃ v, scoreCyclePattern history z period = some v := by
  have h12 : ((period : ℚ) / 12) ≠ 0 := by
    have : (0 : ℚ) < (period : ℚ) := by exact_mod_cast hp
    positivity
  simp only [scoreCyclePattern]
  split
  · rw [div?_of_ne _ h12]; exact ⟨_, rfl⟩
  · rw [div?_of_ne _ h12]; exact ⟨_, rfl⟩

theorem scoreNumberHotCold_eq (history : List DrawRecord) (z : Zodiac)
    (hh : history ≠ []) :
    ∃ v, scoreNumberHotCold history z = some v := by
  have hlen : 0 < ((history.take 50).map DrawRecord.tema).length := by
    simp only [List.length_map, List.length_take]
    rcases history with _ | ⟨a, t⟩
    · exact absurd rfl hh
    · simp
  have hexp : (((history.take 50).map DrawRecord.tema).length : ℚ) *
      ((zodiacNumbers z).length : ℚ) / 49 ≠ 0 := by
    have h1 : (0 : ℚ) < (((history.take 50).map DrawRecord.tema).length : ℚ) := by
      exact_mod_cast hlen
    have h2 : (0 : ℚ) < ((zodiacNumbers z).length : ℚ) := by
      exact_mod_cast zodiacNumbers_length_pos z
    positivity
  simp only [scoreNumberHotCold]
  split
  · rw [div?_of_ne _ hexp]; exact ⟨_, rfl⟩
  · rw [div?_of_ne _ hexp]; exact ⟨_, rfl⟩

/-- Explicit shape of `calcComprehensiveScore` on the engine's call pattern
(non-empty window, positive period): it succeeds, each stored dimension is
the raw scorer value times its weight, the perturbation is
`uniform(-15, 15)` from the post-Monte-Carlo generator state, and the total
is the sum of all 18 entries. -/
theorem calcComprehensiveScore_shape (prng : ℤ → ℕ → ℚ)
    (history : List DrawRecord) (z : Zodiac) (period : ℕ)
    (preds : List String) (rng : RngState)
    (hh : history ≠ []) (hp : 0 < period) :
    ∃ ltm cyc nhc,
      scoreLongTermMissing history z period = some ltm ∧
      scoreCyclePattern history z period = some cyc ∧
      scoreNumberHotCold history z = some nhc ∧
      calcComprehensiveScore prng history z period preds rng = some
        (let mcr := scoreMonteCarlo prng history z rng
         let d := nextDraw prng mcr.2
         let randomFactor := -RANDOM_PERTURBATION_RANGE +
           (RANDOM_PERTURBATION_RANGE - -RANDOM_PERTURBATION_RANGE) * d.1
         ({ long_term_missing := ltm * 0.08,
            short_term_hot := scoreShortTermHot history z * 0.07,
            cycle_pattern := cyc * 0.08,
            consecutive_penalty := scoreConsecutivePenalty history z * 0.07,
            markov_chain := scoreMarkovChain history z * 0.10,
            fourier_analysis := scoreFourierAnalysis history z * 0.08,
            bayesian_probability := scoreBayesianProbability history z * 0.07,
            number_hot_cold := nhc * 0.05,
            tail_trend := scoreTailTrend history z * 0.05,
            big_small := scoreBigSmall history z * 0.05,
            odd_even := scoreOddEven history z * 0.05,
            zodiac_relationship := scoreZodiacRelationship history z * 0.05,
            five_elements := scoreFiveElements history z * 0.05,
            color_wave := scoreColorWave history z * 0.05,
            monte_carlo := mcr.1 * 0.05,
            repeat_penalty := scoreRepeatPenalty z preds * 0.03,
            prime_composite := scorePrimeComposite history z * 0.02,
            random_factor := randomFactor,
            total_score := ltm * 0.08 + scoreShortTermHot history z * 0.07 +
              cyc * 0.08 + scoreConsecutivePenalty history z * 0.07 +
              scoreMarkovChain history z * 0.10 +
              scoreFourierAnalysis history z * 0.08 +
              scoreBayesianProbability history z * 0.07 + nhc * 0.05 +
              scoreTailTrend history z * 0.05 + scoreBigSmall history z * 0.05 +
              scoreOddEven history z * 0.05 +
              scoreZodiacRelationship history z * 0.05 +
              scoreFiveElements history z * 0.05 +
              scoreColorWave history z * 0.05 + mcr.1 * 0.05 +
              scoreRepeatPenalty z preds * 0.03 +
              scorePrimeComposite history z * 0.02 + randomFactor }, d.2)) := by
  obtain ⟨ltm, hltm⟩ := scoreLongTermMissing_eq history z hp
  obtain ⟨cyc, hcyc⟩ := scoreCyclePattern_eq history z hp
  obtain ⟨nhc, hnhc⟩ := scoreNumberHotCold_eq history z hh
  refine ⟨ltm, cyc, nhc, hltm, hcyc, hnhc, ?_⟩
  simp only [calcComprehensiveScore, hltm, hcyc, hnhc, Option.bind_eq_bind,
    Option.some_bind]

/-- `calcComprehensiveScore` succeeds on the engine's call pattern. -/
theorem calcComprehensiveScore_isSome (prng : ℤ → ℕ → ℚ)
    (history : List DrawRecord) (z : Zodiac) (period : ℕ)
    (preds : List String) (rng : RngState)
    (hh : history ≠ []) (hp : 0 < period) :
    ∃ s rng', calcComprehensiveScore prng history z period preds rng = some (s, rng') := by
  obtain ⟨ltm, cyc, nhc, _, _, _, hcalc⟩ :=
    calcComprehensiveScore_shape prng history z period preds rng hh hp
  exact ⟨_, _, hcalc⟩

/-- The scoring loop succeeds on the engine's call pattern and returns one
breakdown per candidate, keyed in the iteration order. -/
theorem scoreAll_eq (prng : ℤ → ℕ → ℚ) (history : List DrawRecord)
    (period : ℕ) (preds : List String)
    (hh : history ≠ []) (hp : 0 < period) :
    ∀ (zs : List Zodiac) (rng : RngState),
      ∃ l rng', scoreAll prng history period preds zs rng = some (l, rng') ∧
        l.map Prod.fst = zs := by
  intro zs
  induction zs with
  | nil => exact fun rng => ⟨[], rng, rfl, rfl⟩
  | cons z t ih =>
    intro rng
    obtain ⟨s, r2, hcalc⟩ :=
      calcComprehensiveScore_isSome prng history z period preds rng hh hp
    obtain ⟨l, rng', hrec, hmap⟩ := ih r2
    refine ⟨(z, s) :: l, rng', ?_, ?_⟩
    · simp only [scoreAll, hcalc, Option.bind_eq_bind, Option.some_bind, hrec]
    · simp [hmap]

theorem allZodiacs_nodup : allZodiacs.Nodup := by decide

/-- On a non-empty window, `predict_top2_zodiac`'s core succeeds; the
reported window size is the *requested* dynamic period, the two selected
zodiacs are distinct, their scores are in descending order, and the full
table has one entry per candidate. -/
theorem predictTop2Core_shape (prng : ℤ → ℕ → ℚ) (store : List DrawRecord)
    (predHist : List (String × String)) (dp : ℕ) (seedv : ℤ)
    (hne : store.take dp ≠ []) :
    ∃ r, predictTop2Core prng store predHist dp seedv = some r ∧
      r.period = dp ∧ r.zodiac1 ≠ r.zodiac2 ∧ r.score2 ≤ r.score1 ∧
      r.analysis.map Prod.fst = allZodiacs := by
  have hp : 0 < dp := by
    rcases Nat.eq_zero_or_pos dp with h0 | h
    · simp [h0] at hne
    · exact h
  obtain ⟨l, rng', hall, hmap⟩ :=
    scoreAll_eq prng (store.take dp) dp (recentPredictionsOf predHist) hne hp
      allZodiacs (.seeded seedv 0)
  have hlen : l.length = 12 := by
    have := congrArg List.length hmap
    simpa using this
  have hperm := sortByDesc_perm (fun p => p.2.total_score) l
  have hslen : (sortByDesc (fun p => p.2.total_score) l).length = 12 :=
    hperm.length_eq.trans hlen
  have hnodup : ((sortByDesc (fun p => p.2.total_score) l).map Prod.fst).Nodup := by
    have h1 : ((sortByDesc (fun p => p.2.total_score) l).map Prod.fst).Perm
        (l.map Prod.fst) := hperm.map Prod.fst
    have h2 : (l.map Prod.fst).Nodup := hmap ▸ allZodiacs_nodup
    exact h1.nodup_iff.2 h2
  have hpw := sortByDesc_pairwise (fun p => p.2.total_score) l
  rcases hs : sortByDesc (fun p => p.2.total_score) l with _ | ⟨⟨z1, a1⟩, _ | ⟨⟨z2, a2⟩, rest⟩⟩
  · rw [hs] at hslen; simp at hslen
  · rw [hs] at hslen; simp at hslen
  · rw [hs] at hnodup hpw
    have hz12 : z1 ≠ z2 := by
      simp only [List.map_cons, List.nodup_cons] at hnodup
      exact fun h => hnodup.1 (by simp [h])
    have hscore : a2.total_score ≤ a1.total_score :=
      (List.pairwise_cons.1 hpw).1 (z2, a2) (by simp)
    refine ⟨{ zodiac1 := z1, zodiac2 := z2, numbers1 := zodiacNumbers z1,
              numbers2 := zodiacNumbers z2, score1 := a1.total_score,
              score2 := a2.total_score, analysis := l, period := dp },
            ?_, rfl, hz12, hscore, hmap⟩
    simp only [predictTop2Core, Option.bind_eq_bind]
    rw [if_neg (by simpa using hne)]
    simp only [hall, Option.some_bind, hs]

theorem randIndex_lt (prng : ℤ → ℕ → ℚ) (n : ℕ) (rng : RngState) (hn : 0 < n) :
    (randIndex prng n rng).1 < n := by
  simp only [randIndex]
  exact lt_of_le_of_lt (min_le_left _ _) (Nat.sub_lt hn one_pos)

/-- The fallback `random.sample(all_zodiacs, 2)` always yields two distinct
zodiacs (sampling without replacement from a duplicate-free population). -/
theorem sample2_ne (prng : ℤ → ℕ → ℚ) (rng : RngState) :
    (sample2 prng allZodiacs rng).1.1 ≠ (sample2 prng allZodiacs rng).1.2 := by
  have key : ∀ i < 12, ∀ j < 11,
      allZodiacs.getD i Zodiac.shu ≠ (allZodiacs.eraseIdx i).getD j Zodiac.shu := by
    decide
  have h12 : allZodiacs.length = 12 := by decide
  have hi : (randIndex prng allZodiacs.length rng).1 < 12 :=
    h12 ▸ randIndex_lt prng allZodiacs.length rng (by rw [h12]; norm_num)
  have hrest : (allZodiacs.eraseIdx (randIndex prng allZodiacs.length rng).1).length = 11 := by
    rw [List.length_eraseIdx_of_lt (by rw [h12]; exact hi), h12]
  have hj : (randIndex prng
      (allZodiacs.eraseIdx (randIndex prng allZodiacs.length rng).1).length
      (randIndex prng allZodiacs.length rng).2).1 < 11 :=
    hrest ▸ randIndex_lt prng _ _ (by rw [hrest]; norm_num)
  simp only [sample2]
  exact key _ hi _ hj

/-- On an empty window, `predict_top2_zodiac`'s core returns the fallback:
two distinct random zodiacs with scores 50 and 45, reported window size 0. -/
theorem predictTop2Core_empty (prng : ℤ → ℕ → ℚ) (store : List DrawRecord)
    (predHist : List (String × String)) (dp : ℕ) (seedv : ℤ)
    (he : store.take dp = []) :
    ∃ r, predictTop2Core prng store predHist dp seedv = some r ∧
      r.zodiac1 ≠ r.zodiac2 ∧ r.score1 = 50 ∧ r.score2 = 45 ∧ r.period = 0 := by
  have heq : predictTop2Core prng store predHist dp seedv = some
      { zodiac1 := (sample2 prng allZodiacs (.seeded seedv 0)).1.1,
        zodiac2 := (sample2 prng allZodiacs (.seeded seedv 0)).1.2,
        numbers1 := zodiacNumbers (sample2 prng allZodiacs (.seeded seedv 0)).1.1,
        numbers2 := zodiacNumbers (sample2 prng allZodiacs (.seeded seedv 0)).1.2,
        score1 := 50, score2 := 45, analysis := [], period := 0 } := by
    simp only [predictTop2Core]
    rw [if_pos (by simp [he])]
  exact ⟨_, heq, sample2_ne prng (.seeded seedv 0), rfl, rfl, rfl⟩

/-! ## Claims C3, C6, C10 -/

/-- C10: for every input (any history state, any period id or none), the
top-2 zodiac prediction succeeds and returns two distinct zodiac candidates
with `score1 ≥ score2`, on both the empty-history fallback path and the
scored path. -/
theorem c10_top2_distinct_and_ordered (prng : ℤ → ℕ → ℚ)
    (store : List DrawRecord) (predHist : List (String × String))
    (period : ℕ) (expect : Option ℕ) (now : ℤ) (entropy : ℕ → ℚ)
    (rng0 : RngState) :
    ∃ r rngF,
      predictTop2 prng store predHist period expect now entropy rng0 =
        some (r, rngF) ∧ r.zodiac1 ≠ r.zodiac2 ∧ r.score2 ≤ r.score1 := by
  by_cases he : store.take (top2DynamicPeriod expect period) = []
  · obtain ⟨r, hr, hne, h50, h45, _⟩ :=
      predictTop2Core_empty prng store predHist (top2DynamicPeriod expect period)
        (top2Seed expect period now) he
    refine ⟨r, RngState.unseeded entropy 0, ?_, hne, by rw [h50, h45]; norm_num⟩
    simp [predictTop2, hr]
  · obtain ⟨r, hr, _, hne, hsc, _⟩ :=
      predictTop2Core_shape prng store predHist (top2DynamicPeriod expect period)
        (top2Seed expect period now) he
    refine ⟨r, RngState.unseeded entropy 0, ?_, hne, hsc⟩
    simp [predictTop2, hr]

/-- C6, amended: the `'period'` field of the returned result equals the
*requested* dynamic window length (0 on the empty-history fallback), not
`min(requested, available)`: it does not shrink when the store holds fewer
records. -/
theorem c6_period_field_amended (prng : ℤ → ℕ → ℚ)
    (store : List DrawRecord) (predHist : List (String × String))
    (period : ℕ) (expect : Option ℕ) (now : ℤ) (entropy : ℕ → ℚ)
    (rng0 : RngState) :
    ∃ r rngF,
      predictTop2 prng store predHist period expect now entropy rng0 =
        some (r, rngF) ∧
      r.period = (if store.take (top2DynamicPeriod expect period) = [] then 0
        else top2DynamicPeriod expect period) := by
  by_cases he : store.take (top2DynamicPeriod expect period) = []
  · obtain ⟨r, hr, _, _, _, hp⟩ :=
      predictTop2Core_empty prng store predHist (top2DynamicPeriod expect period)
        (top2Seed expect period now) he
    refine ⟨r, RngState.unseeded entropy 0, ?_, by rw [hp, if_pos he]⟩
    simp [predictTop2, hr]
  · obtain ⟨r, hr, hp, _, _, _⟩ :=
      predictTop2Core_shape prng store predHist (top2DynamicPeriod expect period)
        (top2Seed expect period now) he
    refine ⟨r, RngState.unseeded entropy 0, ?_, by rw [hp, if_neg he]⟩
    simp [predictTop2, hr]

/-- C3: for every supplied period id and fixed store (draw history and
prediction history), two calls to the top-2 prediction return identical
results — same candidates, same total scores, and the same per-dimension
breakdown (`analysis` is part of `Top2Result`) — regardless of the incoming
generator state, the wall clock, and the ambient entropy. -/
theorem c3_deterministic_for_fixed_period (prng : ℤ → ℕ → ℚ)
    (store : List DrawRecord) (predHist : List (String × String))
    (period : ℕ) (n : ℕ) (now1 now2 : ℤ) (entropy1 entropy2 : ℕ → ℚ)
    (rng1 rng2 : RngState) :
    (predictTop2 prng store predHist period (some n) now1 entropy1 rng1).map
        Prod.fst =
      (predictTop2 prng store predHist period (some n) now2 entropy2 rng2).map
        Prod.fst := by
  simp only [predictTop2, Option.map_map, top2Seed]
  exact Option.map_congr (fun a _ => rfl)

/-! ## Claims C1, C4, C5, C7 -/

/-- C1: the number-hot/cold scorer does *not* tolerate an empty window: on
`history = []` the expectation `len(tema_list) * len(zodiac_nums) / 49` is 0
and the else-branch divides by it (`ZeroDivisionError`, modelled as `none`),
contradicting the required neutral value in [0,100]. -/
theorem c1_number_hot_cold_raises_on_empty_window :
    scoreNumberHotCold [] Zodiac.shu = none := by
  with_unfolding_all decide

/-- C7: `predict_3in3` on the empty-history path returns *without* the final
`random.seed()` reset: after a call with `expect = "123"` and one group over
an empty store, the process-wide generator is still deterministically seeded
with `int(expect)*100 + num_groups = 12301` (three sampling draws consumed),
not reset to an unseeded state. -/
theorem c7_predict3in3_empty_path_leaves_seeded :
    (predict3in3 prngHalf [] 1 (some 123) 0 entropyHalf
        (RngState.seeded 0 0)).snd = RngState.seeded 12301 3 ∧
    (predict3in3 prngHalf [] 1 (some 123) 0 entropyHalf
        (RngState.seeded 0 0)).snd.isSeeded = true := by
  constructor
  · with_unfolding_all rfl
  · with_unfolding_all rfl

/-- C4 counterexample: on the newest-first window 鼠,牛,鼠,虎 (so
chronologically 虎→鼠→牛→鼠) and candidate 虎, the claim's first-order
estimate (transitions *out of* the most recent category 鼠: one, 鼠→牛,
none to 虎) is 0, but the code returns 50: it walks the newest-first list,
counting the candidate in the *next list position*, i.e. the
chronologically *previous* draw. -/
theorem c4_markov_direction_counterexample :
    scoreMarkovChain histMarkov Zodiac.hu = 50 ∧
    markovSpecScore histMarkov Zodiac.hu = 0 ∧
    scoreMarkovChain histMarkov Zodiac.hu ≠ markovSpecScore histMarkov Zodiac.hu := by
  with_unfolding_all decide

/-- C4, amended: for a window of fewer than 2 records the scorer returns the
neutral 50.  For any window `a :: b :: t` (newest first), it returns
100 × cnt/total where `total` counts the list positions holding the most
recent label `normTZ a` among all adjacent pairs of the *newest-first* list
and `cnt` counts those whose *next list entry* (the chronologically previous
draw) is the candidate; `total ≥ 1` always (the first pair starts with
`normTZ a` itself), so the second-order fallback of the source is
unreachable. -/
theorem c4_markov_listorder_characterization (a b : DrawRecord)
    (t : List DrawRecord) (z : Zodiac) :
    (scoreMarkovChain [] z = 50 ∧ scoreMarkovChain [a] z = 50) ∧
    (let zl := (a :: b :: t).map normTZ
     let pairs := zl.zip zl.tail
     let total := pairs.countP (fun p => p.1 == normTZ a)
     let cnt := pairs.countP (fun p => p.1 == normTZ a && p.2 == zodiacName z)
     0 < total ∧
       scoreMarkovChain (a :: b :: t) z = (cnt : ℚ) / (total : ℚ) * 100) := by
  refine ⟨⟨rfl, rfl⟩, ?_, ?_⟩
  · simp only [List.map_cons, List.tail_cons, List.zip_cons_cons,
      List.countP_cons, beq_self_eq_true, if_pos]
    omega
  · have htot : 0 <
        (((a :: b :: t).map normTZ).zip ((a :: b :: t).map normTZ).tail).countP
          (fun p => p.1 == normTZ a) := by
      simp only [List.map_cons, List.tail_cons, List.zip_cons_cons,
        List.countP_cons, beq_self_eq_true, if_pos]
      omega
    simp only [scoreMarkovChain]
    rw [if_neg (by simp)]
    simp only [List.map_cons, List.headD_cons]
    rw [if_neg (by simp only [List.map_cons] at htot; omega)]

/-- C5 counterexample: for the non-empty 4-record window in which 牛 never
appears, called with the engine's smallest requested period 30 (a real call
pattern: a 4-record store and a period id selecting the 30-window), the
long-term-missing score is 80, not the claimed maximum 100. -/
theorem c5_long_term_missing_counterexample :
    histShu4 ≠ [] ∧ zodiacName Zodiac.niu ∉ histShu4.map normTZ ∧
    scoreLongTermMissing histShu4 Zodiac.niu 30 = some 80 ∧
    scoreLongTermMissing histShu4 Zodiac.niu 30 ≠ some 100 := by
  with_unfolding_all decide

/-- C5, amended: an absent candidate's gap is `window.size`, but the
expected gap is computed from the *requested* period, not the window size:
the score is `min(100, window.size·600/period)`, which reaches 100 exactly
when `period ≤ 6·window.size` — in particular whenever the window is full,
but not on short history. -/
theorem c5_long_term_missing_amended (history : List DrawRecord) (z : Zodiac)
    (period : ℕ) (habs : zodiacName z ∉ history.map normTZ) (hp : 0 < period) :
    scoreLongTermMissing history z period =
      some (min 100 ((history.length : ℚ) * 600 / (period : ℚ))) ∧
    (period ≤ 6 * history.length →
      scoreLongTermMissing history z period = some 100) := by
  have hq : (0 : ℚ) < (period : ℚ) := by exact_mod_cast hp
  have h12 : ((period : ℚ) / 12) ≠ 0 := by positivity
  have hidx : (history.map normTZ).indexOf? (zodiacName z) = none := by
    rw [List.indexOf?_eq_none_iff]
    intro x hx
    simp only [beq_iff_eq]
    exact fun h => habs (h ▸ hx)
  have harith : (history.length : ℚ) / ((period : ℚ) / 12) * 50 =
      (history.length : ℚ) * 600 / (period : ℚ) := by
    field_simp
    ring
  have hmain : scoreLongTermMissing history z period =
      some (min 100 ((history.length : ℚ) * 600 / (period : ℚ))) := by
    simp only [scoreLongTermMissing, hidx, List.length_map]
    rw [div?_of_ne _ h12]
    simp only [Option.map_some']
    rw [harith]
  refine ⟨hmain, fun hle => ?_⟩
  rw [hmain]
  have h100 : (100 : ℚ) ≤ (history.length : ℚ) * 600 / (period : ℚ) := by
    rw [le_div_iff₀ hq]
    have hc : (period : ℚ) ≤ 6 * (history.length : ℚ) := by exact_mod_cast hle
    nlinarith
  rw [min_eq_left h100]

/-- Witness for the amended C5 statement at the 4-record 鼠-only window and
requested period 30. -/
theorem c5_long_term_missing_amended_witness :
    (zodiacName Zodiac.niu ∉ histShu4.map normTZ ∧ 0 < 30) ∧
    scoreLongTermMissing histShu4 Zodiac.niu 30 =
      some (min 100 ((histShu4.length : ℚ) * 600 / ((30 : ℕ) : ℚ))) :=
  ⟨⟨by decide, by decide⟩,
    (c5_long_term_missing_amended histShu4 Zodiac.niu 30 (by decide) (by decide)).1⟩

/-! ## Claim C2 -/

theorem nextDraw_bounded {prng : ℤ → ℕ → ℚ} {rng : RngState}
    (h : rng.Bounded prng) :
    (0 ≤ (nextDraw prng rng).1 ∧ (nextDraw prng rng).1 ≤ 1) ∧
      (nextDraw prng rng).2.Bounded prng := by
  cases rng with
  | seeded s p => exact ⟨h p, h⟩
  | unseeded e p => exact ⟨h p, h⟩

theorem mcFold_bounded (prng : ℤ → ℕ → ℚ) (probs : List (Zodiac × ℚ))
    (z : Zodiac) :
    ∀ (l : List ℕ) (acc : ℕ × RngState), acc.2.Bounded prng →
      ((l.foldl (mcStep prng probs z) acc).2).Bounded prng := by
  intro l
  induction l with
  | nil => exact fun acc h => h
  | cons i t ih =>
    intro acc h
    rw [List.foldl_cons]
    refine ih _ ?_
    unfold mcStep
    dsimp only
    split
    · split
      · exact (nextDraw_bounded h).2
      · exact (nextDraw_bounded h).2
    · exact (nextDraw_bounded h).2

theorem scoreMonteCarlo_bounded (prng : ℤ → ℕ → ℚ) (history : List DrawRecord)
    (z : Zodiac) (rng : RngState) (h : rng.Bounded prng) :
    ((scoreMonteCarlo prng history z rng).2).Bounded prng := by
  unfold scoreMonteCarlo
  split
  · exact h
  · exact mcFold_bounded prng _ z _ (0, rng) h

/-- C2: for every candidate and every prediction call over a non-empty
window (so every scored call), the total score equals the sum over all 17
dimensions of (weight × raw dimension score) plus one perturbation term
drawn for that candidate, and the perturbation lies in
[-RANDOM_PERTURBATION_RANGE, RANDOM_PERTURBATION_RANGE] = [-15, 15]. -/
theorem c2_total_score_decomposition (prng : ℤ → ℕ → ℚ)
    (history : List DrawRecord) (z : Zodiac) (period : ℕ)
    (preds : List String) (rng : RngState)
    (hh : history ≠ []) (hp : 0 < period) (hb : rng.Bounded prng) :
    ∃ s rng' ltm cyc nhc,
      scoreLongTermMissing history z period = some ltm ∧
      scoreCyclePattern history z period = some cyc ∧
      scoreNumberHotCold history z = some nhc ∧
      calcComprehensiveScore prng history z period preds rng = some (s, rng') ∧
      s.total_score =
        0.08 * ltm + 0.07 * scoreShortTermHot history z + 0.08 * cyc +
        0.07 * scoreConsecutivePenalty history z +
        0.10 * scoreMarkovChain history z +
        0.08 * scoreFourierAnalysis history z +
        0.07 * scoreBayesianProbability history z + 0.05 * nhc +
        0.05 * scoreTailTrend history z + 0.05 * scoreBigSmall history z +
        0.05 * scoreOddEven history z +
        0.05 * scoreZodiacRelationship history z +
        0.05 * scoreFiveElements history z + 0.05 * scoreColorWave history z +
        0.05 * (scoreMonteCarlo prng history z rng).1 +
        0.03 * scoreRepeatPenalty z preds +
        0.02 * scorePrimeComposite history z + s.random_factor ∧
      -RANDOM_PERTURBATION_RANGE ≤ s.random_factor ∧
      s.random_factor ≤ RANDOM_PERTURBATION_RANGE := by
  obtain ⟨ltm, cyc, nhc, hltm, hcyc, hnhc, hcalc⟩ :=
    calcComprehensiveScore_shape prng history z period preds rng hh hp
  refine ⟨_, _, ltm, cyc, nhc, hltm, hcyc, hnhc, hcalc, ?_, ?_, ?_⟩
  · dsimp only
    ring
  · dsimp only
    have hmc := scoreMonteCarlo_bounded prng history z rng hb
    have hd := (nextDraw_bounded hmc).1
    simp only [RANDOM_PERTURBATION_RANGE]
    linarith [hd.1, hd.2]
  · dsimp only
    have hmc := scoreMonteCarlo_bounded prng history z rng hb
    have hd := (nextDraw_bounded hmc).1
    simp only [RANDOM_PERTURBATION_RANGE]
    linarith [hd.1, hd.2]

/-- Witness for C2 at the 4-record window, period 30, the constant-1/2
generator. -/
theorem c2_total_score_decomposition_witness :
    (histShu4 ≠ [] ∧ 0 < 30 ∧
      RngState.Bounded prngHalf (RngState.seeded 0 0)) ∧
    (∃ s rng' ltm cyc nhc,
      scoreLongTermMissing histShu4 Zodiac.shu 30 = some ltm ∧
      scoreCyclePattern histShu4 Zodiac.shu 30 = some cyc ∧
      scoreNumberHotCold histShu4 Zodiac.shu = some nhc ∧
      calcComprehensiveScore prngHalf histShu4 Zodiac.shu 30 []
        (RngState.seeded 0 0) = some (s, rng') ∧
      s.total_score =
        0.08 * ltm + 0.07 * scoreShortTermHot histShu4 Zodiac.shu + 0.08 * cyc +
        0.07 * scoreConsecutivePenalty histShu4 Zodiac.shu +
        0.10 * scoreMarkovChain histShu4 Zodiac.shu +
        0.08 * scoreFourierAnalysis histShu4 Zodiac.shu +
        0.07 * scoreBayesianProbability histShu4 Zodiac.shu + 0.05 * nhc +
        0.05 * scoreTailTrend histShu4 Zodiac.shu +
        0.05 * scoreBigSmall histShu4 Zodiac.shu +
        0.05 * scoreOddEven histShu4 Zodiac.shu +
        0.05 * scoreZodiacRelationship histShu4 Zodiac.shu +
        0.05 * scoreFiveElements histShu4 Zodiac.shu +
        0.05 * scoreColorWave histShu4 Zodiac.shu +
        0.05 * (scoreMonteCarlo prngHalf histShu4 Zodiac.shu
          (RngState.seeded 0 0)).1 +
        0.03 * scoreRepeatPenalty Zodiac.shu [] +
        0.02 * scorePrimeComposite histShu4 Zodiac.shu + s.random_factor ∧
      -RANDOM_PERTURBATION_RANGE ≤ s.random_factor ∧
      s.random_factor ≤ RANDOM_PERTURBATION_RANGE) :=
  ⟨⟨by decide, by decide, fun i => ⟨by norm_num [prngHalf], by norm_num [prngHalf]⟩⟩,
    c2_total_score_decomposition prngHalf histShu4 Zodiac.shu 30 []
      (RngState.seeded 0 0) (by decide) (by decide)
      (fun i => ⟨by norm_num [prngHalf], by norm_num [prngHalf]⟩)⟩

/-- C6 counterexample: a 1-record store queried with a period id selecting
the 300-window: the result's `'period'` field is 300, although
`min(requested_window, available_history) = 1`. -/
theorem c6_period_field_counterexample :
    ∃ r rngF,
      predictTop2 prngHalf storeOne [] 300 (some 100) 0 entropyHalf
        (RngState.seeded 0 0) = some (r, rngF) ∧
      r.period = 300 ∧ storeOne.length = 1 ∧ min 300 storeOne.length = 1 ∧
      r.period ≠ min 300 storeOne.length := by
  obtain ⟨r, hr, hp, _, _, _⟩ :=
    predictTop2Core_shape prngHalf storeOne [] (top2DynamicPeriod (some 100) 300)
      (top2Seed (some 100) 300 0) (by decide)
  refine ⟨r, RngState.unseeded entropyHalf 0, ?_, ?_, rfl, rfl, ?_⟩
  · simp [predictTop2, hr]
  · rw [hp]; decide
  · rw [hp]; decide

/-! ## Claim C8 -/

theorem buildRandomGroups_sorted (prng : ℤ → ℕ → ℚ) :
    ∀ (l : List ℕ) (rng : RngState) (g : BallGroup),
      g ∈ (buildRandomGroups prng l rng).1 → List.Sorted (· ≤ ·) g.1 := by
  intro l
  induction l with
  | nil => intro rng g hg; simp [buildRandomGroups] at hg
  | cons i t ih =>
    intro rng g hg
    simp only [buildRandomGroups, List.mem_cons] at hg
    rcases hg with rfl | hg
    · exact sortAsc_sorted _
    · exact ih _ g hg

theorem buildGroupsAux_sorted (prng : ℤ → ℕ → ℚ) (sortedNums : List (ℕ × ℚ))
    (numGroups : ℕ) (hng : numGroups ≠ 1) :
    ∀ (gis : List ℕ) (rng : RngState) (g : BallGroup),
      g ∈ (buildGroupsAux prng sortedNums numGroups gis rng).1 →
        List.Sorted (· ≤ ·) g.1 := by
  intro gis
  induction gis with
  | nil => intro rng g hg; simp [buildGroupsAux] at hg
  | cons gi rest ih =>
    intro rng g hg
    simp only [buildGroupsAux, List.mem_cons] at hg
    rcases hg with rfl | hg
    · unfold buildGroup
      rw [if_neg hng]
      exact sortAsc_sorted _
    · exact ih _ g hg

/-- C8, amended: the triples of the empty-history fallback and of every
multi-group (`num_groups ≥ 2`) selection are sorted ascending; the
`num_groups = 1` scored path is the exception (see the counterexample). -/
theorem c8_sorted_triples_amended (prng : ℤ → ℕ → ℚ)
    (store : List DrawRecord) (numGroups : ℕ) (expect : Option ℕ) (now : ℤ)
    (entropy : ℕ → ℚ) (rng0 : RngState)
    (h : store = [] ∨ 2 ≤ numGroups) :
    ∀ g ∈ (predict3in3 prng store numGroups expect now entropy rng0).1,
      List.Sorted (· ≤ ·) g.1 := by
  intro g hg
  simp only [predict3in3] at hg
  by_cases he : (store.take (threeDynamicPeriod expect)).isEmpty
  · rw [if_pos he] at hg
    exact buildRandomGroups_sorted prng _ _ g hg
  · rw [if_neg he] at hg
    have hng : numGroups ≠ 1 := by
      rcases h with h1 | h2
      · exact absurd (by simp [h1]) he
      · omega
    exact buildGroupsAux_sorted prng _ numGroups hng _ _ g hg

/-- Witness for the amended C8 statement: three groups over an empty store. -/
theorem c8_sorted_triples_amended_witness :
    (([] : List DrawRecord) = [] ∨ 2 ≤ 3) ∧
    (∀ g ∈ (predict3in3 prngHalf [] 3 (some 123) 0 entropyHalf
        (RngState.seeded 0 0)).1, List.Sorted (· ≤ ·) g.1) :=
  ⟨Or.inl rfl, c8_sorted_triples_amended prngHalf [] 3 (some 123) 0 entropyHalf
    (RngState.seeded 0 0) (Or.inl rfl)⟩

theorem drawPerturbations_bump :
    drawPerturbations prngBump 49 (RngState.seeded 0 0) =
      (perturbLit, RngState.seeded 0 49) := by
  with_unfolding_all rfl

theorem items_bump :
    (keysInOrder storeSeven).map
        (fun n => (n, ballScore storeSeven perturbLit n)) = itemsLit := by
  with_unfolding_all decide

theorem sorted_bump : sortByDesc Prod.snd itemsLit = sortedLit := by
  with_unfolding_all decide

theorem sortedNums_bump :
    sortedNumsOf storeSeven perturbLit = sortedLit := by
  unfold sortedNumsOf
  rw [items_bump]
  exact sorted_bump

/-- C8 counterexample: with `num_groups = 1` over a non-empty store the
returned triple is the top 3 by score in *score* order — here
[48, 44, 8] — not ascending numeric order. -/
theorem c8_single_group_unsorted_counterexample :
    ((predict3in3 prngBump storeSeven 1 none 0 entropyHalf
        (RngState.seeded 0 0)).1.map Prod.fst) = [[48, 44, 8]] ∧
    ¬ List.Sorted (· ≤ ·) [48, 44, 8] := by
  constructor
  · simp only [predict3in3, threeDynamicPeriod]
    rw [if_neg (by decide)]
    have htake : storeSeven.take 100 = storeSeven := by decide
    have hseed : threeSeed none 1 0 = 0 := rfl
    rw [htake, hseed, drawPerturbations_bump]
    simp only []
    rw [sortedNums_bump]
    with_unfolding_all decide
  · decide

/-! ## Claim C9 -/

theorem foldl_insert_nodup (l : List ℕ) :
    ∀ acc : List ℕ, acc.Nodup →
      (l.foldl (fun acc a => if a ∈ acc then acc else acc ++ [a]) acc).Nodup := by
  induction l with
  | nil => exact fun acc h => h
  | cons a t ih =>
    intro acc h
    rw [List.foldl_cons]
    by_cases ha : a ∈ acc
    · rw [if_pos ha]; exact ih acc h
    · rw [if_neg ha]
      refine ih _ ?_
      rw [List.nodup_append]
      refine ⟨h, List.nodup_singleton a, ?_⟩
      intro x hx hxa
      rcases List.mem_singleton.1 hxa with rfl
      exact ha hx

theorem foldl_insert_mem (l : List ℕ) :
    ∀ (acc : List ℕ) (x : ℕ),
      x ∈ l.foldl (fun acc a => if a ∈ acc then acc else acc ++ [a]) acc ↔
        x ∈ acc ∨ x ∈ l := by
  induction l with
  | nil => simp
  | cons a t ih =>
    intro acc x
    rw [List.foldl_cons]
    by_cases ha : a ∈ acc
    · rw [if_pos ha, ih]
      constructor
      · rintro (h | h)
        · exact Or.inl h
        · exact Or.inr (List.mem_cons_of_mem a h)
      · rintro (h | h)
        · exact Or.inl h
        · rcases List.mem_cons.1 h with rfl | h
          · exact Or.inl ha
          · exact Or.inr h
    · rw [if_neg ha, ih]
      simp only [List.mem_append, List.mem_singleton, List.mem_cons]
      tauto

theorem firstOccs_nodup (l : List ℕ) : (firstOccs l).Nodup :=
  foldl_insert_nodup l [] List.nodup_nil

theorem mem_firstOccs (l : List ℕ) (x : ℕ) : x ∈ firstOccs l ↔ x ∈ l := by
  unfold firstOccs
  rw [foldl_insert_mem]
  simp

theorem nums1to49_nodup : nums1to49.Nodup := by decide

theorem keysInOrder_nodup (h : List DrawRecord) : (keysInOrder h).Nodup := by
  unfold keysInOrder
  rw [List.nodup_append]
  refine ⟨firstOccs_nodup _, nums1to49_nodup.filter _, ?_⟩
  intro x hx hx2
  rcases List.mem_filter.1 hx2 with ⟨_, hnot⟩
  have hnot' : x ∉ firstOccs ((h.take 100).flatMap (fun r => validBalls r.open_code)) := by
    simpa using hnot
  exact hnot' hx

theorem mem_keysInOrder (h : List DrawRecord) (x : ℕ) :
    x ∈ keysInOrder h ↔ x ∈ nums1to49 := by
  unfold keysInOrder
  rw [List.mem_append]
  constructor
  · rintro (hf | hfil)
    · rcases List.mem_flatMap.1 ((mem_firstOccs _ x).1 hf) with ⟨r, _, hr⟩
      rcases List.mem_filter.1 hr with ⟨_, hb⟩
      have hb' : 1 ≤ x ∧ x ≤ 49 := by simpa using hb
      unfold nums1to49
      rw [List.mem_range'_1]
      omega
    · exact (List.mem_filter.1 hfil).1
  · intro hn
    by_cases hf : x ∈ firstOccs ((h.take 100).flatMap (fun r => validBalls r.open_code))
    · exact Or.inl hf
    · exact Or.inr (List.mem_filter.2 ⟨hn, by simpa using hf⟩)

theorem keysInOrder_perm (h : List DrawRecord) :
    (keysInOrder h).Perm nums1to49 :=
  (List.perm_ext_iff_of_nodup (keysInOrder_nodup h) nums1to49_nodup).2
    (mem_keysInOrder h)

theorem keysInOrder_length (h : List DrawRecord) :
    (keysInOrder h).length = 49 :=
  (keysInOrder_perm h).length_eq.trans (by decide)

theorem sortedNumsOf_keys_perm (h : List DrawRecord) (p : List ℚ) :
    ((sortedNumsOf h p).map Prod.fst).Perm (keysInOrder h) := by
  unfold sortedNumsOf
  have h1 := (sortByDesc_perm Prod.snd
    ((keysInOrder h).map (fun n => (n, ballScore h p n)))).map Prod.fst
  rw [List.map_map] at h1
  have h3 : (Prod.fst ∘ fun n => (n, ballScore h p n)) = id := rfl
  rw [h3, List.map_id] at h1
  exact h1

theorem sortedNumsOf_keys_nodup (h : List DrawRecord) (p : List ℚ) :
    ((sortedNumsOf h p).map Prod.fst).Nodup :=
  (sortedNumsOf_keys_perm h p).nodup_iff.2 (keysInOrder_nodup h)

theorem sortedNumsOf_length (h : List DrawRecord) (p : List ℚ) :
    (sortedNumsOf h p).length = 49 := by
  have := ((sortedNumsOf_keys_perm h p).trans (keysInOrder_perm h)).length_eq
  simpa using this

theorem buildGroup_sel (prng : ℤ → ℕ → ℚ) (sn : List (ℕ × ℚ)) (ng gi : ℕ)
    (rng : RngState) (hng : ng ≠ 1) (hlen : sn.length = 49)
    (hgi : gi * 3 + 2 < 30) :
    buildGroup prng sn ng gi rng =
      ((sortAsc [(sn.getD (gi * 3) (0, 0)).1, (sn.getD (gi * 3 + 1) (0, 0)).1,
          (sn.getD (gi * 3 + 2) (0, 0)).1],
        groupScores (sortAsc [(sn.getD (gi * 3) (0, 0)).1,
          (sn.getD (gi * 3 + 1) (0, 0)).1,
          (sn.getD (gi * 3 + 2) (0, 0)).1]) gi), rng) := by
  have hmin : min 30 sn.length = 30 := by rw [hlen]; rfl
  have hg : ∀ j, j < 30 → ((sn.take 30).get? j).map Prod.fst =
      some ((sn.getD j (0, 0)).1) := by
    intro j hj
    rw [List.get?_take hj, List.get?_eq_getElem?,
      List.getElem?_eq_getElem (by omega), List.getD_eq_getElem sn (0, 0) (by omega)]
    rfl
  have hsel : (List.range 3).filterMap
      (fun i => ((sn.take 30).get? (gi * 3 + i)).map Prod.fst) =
      [(sn.getD (gi * 3) (0, 0)).1, (sn.getD (gi * 3 + 1) (0, 0)).1,
        (sn.getD (gi * 3 + 2) (0, 0)).1] := by
    have hr3 : List.range 3 = [0, 1, 2] := rfl
    rw [hr3]
    simp only [List.filterMap_cons, List.filterMap_nil]
    rw [Nat.add_zero] at *
    rw [hg (gi * 3) (by omega), hg (gi * 3 + 1) (by omega),
      hg (gi * 3 + 2) (by omega)]
  unfold buildGroup
  rw [if_neg hng]
  dsimp only
  rw [hmin, hsel]
  rfl

theorem sortAsc_triple_nodup (x1 x2 x3 : ℕ) (h1 : x1 ≠ x2) (h2 : x1 ≠ x3)
    (h3 : x2 ≠ x3) : (sortAsc [x1, x2, x3]).Nodup :=
  (sortAsc_perm _).nodup_iff.2 (by simp [h1, h2, h3])

theorem sortAsc_triple_ne (x1 x2 x3 y1 y2 y3 : ℕ)
    (h1 : x1 ≠ y1) (h2 : x1 ≠ y2) (h3 : x1 ≠ y3) :
    sortAsc [x1, x2, x3] ≠ sortAsc [y1, y2, y3] := by
  intro heq
  have hm : x1 ∈ sortAsc [x1, x2, x3] :=
    (sortAsc_perm _).mem_iff.2 (by simp)
  rw [heq] at hm
  have hm2 := (sortAsc_perm _).mem_iff.1 hm
  simp only [List.mem_cons, List.not_mem_nil, or_false] at hm2
  rcases hm2 with h | h | h
  · exact h1 h
  · exact h2 h
  · exact h3 h

theorem threeGroups_distinct_of (prng : ℤ → ℕ → ℚ) (sn : List (ℕ × ℚ))
    (rng : RngState) (hlen : sn.length = 49)
    (hnd : (sn.map Prod.fst).Nodup) :
    (buildGroupsAux prng sn 3 (List.range 3) rng).1.length = 3 ∧
    (∀ g ∈ (buildGroupsAux prng sn 3 (List.range 3) rng).1, g.1.Nodup) ∧
    (buildGroupsAux prng sn 3 (List.range 3) rng).1.Pairwise
      (fun g1 g2 => g1.1 ≠ g2.1) := by
  have hpw : sn.Pairwise (fun a b => a.1 ≠ b.1) := (List.pairwise_map).1 hnd
  have hk : ∀ i j, i < 49 → j < 49 → i ≠ j →
      (sn.getD i (0, 0)).1 ≠ (sn.getD j (0, 0)).1 := by
    intro i j hi hj hij
    have hi' : i < sn.length := by omega
    have hj' : j < sn.length := by omega
    rw [List.getD_eq_get sn (0, 0) hi', List.getD_eq_get sn (0, 0) hj']
    rcases Nat.lt_or_ge i j with hlt | hge
    · exact List.pairwise_iff_get.1 hpw ⟨i, hi'⟩ ⟨j, hj'⟩ hlt
    · have hlt : j < i := by omega
      exact (List.pairwise_iff_get.1 hpw ⟨j, hj'⟩ ⟨i, hi'⟩ hlt).symm
  have hG0 := buildGroup_sel prng sn 3 0 rng (by omega) hlen (by omega)
  have hG1 := buildGroup_sel prng sn 3 1 rng (by omega) hlen (by omega)
  have hG2 := buildGroup_sel prng sn 3 2 rng (by omega) hlen (by omega)
  have hexp : buildGroupsAux prng sn 3 (List.range 3) rng =
      ([(buildGroup prng sn 3 0 rng).1,
        (buildGroup prng sn 3 1 rng).1,
        (buildGroup prng sn 3 2 rng).1], rng) := by
    have hr3 : List.range 3 = [0, 1, 2] := rfl
    rw [hr3]
    simp only [buildGroupsAux]
    rw [hG0, hG1, hG2]
  rw [hexp, hG0, hG1, hG2]
  dsimp only
  refine ⟨rfl, ?_, ?_⟩
  · intro g hg
    simp only [List.mem_cons, List.not_mem_nil, or_false] at hg
    rcases hg with rfl | rfl | rfl
    · exact sortAsc_triple_nodup _ _ _
        (hk _ _ (by norm_num) (by norm_num) (by norm_num))
        (hk _ _ (by norm_num) (by norm_num) (by norm_num))
        (hk _ _ (by norm_num) (by norm_num) (by norm_num))
    · exact sortAsc_triple_nodup _ _ _
        (hk _ _ (by norm_num) (by norm_num) (by norm_num))
        (hk _ _ (by norm_num) (by norm_num) (by norm_num))
        (hk _ _ (by norm_num) (by norm_num) (by norm_num))
    · exact sortAsc_triple_nodup _ _ _
        (hk _ _ (by norm_num) (by norm_num) (by norm_num))
        (hk _ _ (by norm_num) (by norm_num) (by norm_num))
        (hk _ _ (by norm_num) (by norm_num) (by norm_num))
  · refine List.pairwise_cons.2 ⟨?_, List.pairwise_cons.2 ⟨?_, ?_⟩⟩
    · intro g hg
      simp only [List.mem_cons, List.not_mem_nil, or_false] at hg
      rcases hg with rfl | rfl
      · exact sortAsc_triple_ne _ _ _ _ _ _
          (hk _ _ (by norm_num) (by norm_num) (by norm_num))
          (hk _ _ (by norm_num) (by norm_num) (by norm_num))
          (hk _ _ (by norm_num) (by norm_num) (by norm_num))
      · exact sortAsc_triple_ne _ _ _ _ _ _
          (hk _ _ (by norm_num) (by norm_num) (by norm_num))
          (hk _ _ (by norm_num) (by norm_num) (by norm_num))
          (hk _ _ (by norm_num) (by norm_num) (by norm_num))
    · intro g hg
      simp only [List.mem_cons, List.not_mem_nil, or_false] at hg
      rcases hg with rfl
      exact sortAsc_triple_ne _ _ _ _ _ _
        (hk _ _ (by norm_num) (by norm_num) (by norm_num))
        (hk _ _ (by norm_num) (by norm_num) (by norm_num))
        (hk _ _ (by norm_num) (by norm_num) (by norm_num))
    · exact List.pairwise_singleton _ _

theorem windowRanges_pos (k : ℕ) : 0 < windowRanges k := by
  unfold windowRanges
  rcases k with _ | _ | _ | _ | k
  · norm_num
  · norm_num
  · norm_num
  · norm_num
  · show 0 < 30
    norm_num

/-- C9: `predict_3in3` with `num_groups = 3` over any non-empty store
returns exactly 3 triples, none containing a repeated number, and pairwise
distinct in composition (the 49-number ranked pool always holds 49 ≥ 30
candidates, so the offset scheme never needs the random backfill). -/
theorem c9_three_groups_distinct (prng : ℤ → ℕ → ℚ) (store : List DrawRecord)
    (expect : Option ℕ) (now : ℤ) (entropy : ℕ → ℚ) (rng0 : RngState)
    (hne : store ≠ []) :
    (predict3in3 prng store 3 expect now entropy rng0).1.length = 3 ∧
    (∀ g ∈ (predict3in3 prng store 3 expect now entropy rng0).1, g.1.Nodup) ∧
    (predict3in3 prng store 3 expect now entropy rng0).1.Pairwise
      (fun g1 g2 => g1.1 ≠ g2.1) := by
  have hdp : 0 < threeDynamicPeriod expect := by
    rcases expect with _ | n
    · norm_num [threeDynamicPeriod]
    · exact windowRanges_pos _
  have htk : store.take (threeDynamicPeriod expect) ≠ [] := by
    intro h
    rcases List.take_eq_nil_iff.1 h with h0 | h0
    · omega
    · exact hne h0
  simp only [predict3in3]
  rw [if_neg (by simpa using htk)]
  exact threeGroups_distinct_of prng _ _
    (sortedNumsOf_length _ _) (sortedNumsOf_keys_nodup _ _)

/-- Witness for C9 at a 1-record store. -/
theorem c9_three_groups_distinct_witness :
    storeSeven ≠ [] ∧
    ((predict3in3 prngHalf storeSeven 3 (some 123) 0 entropyHalf
        (RngState.seeded 0 0)).1.length = 3 ∧
     (∀ g ∈ (predict3in3 prngHalf storeSeven 3 (some 123) 0 entropyHalf
        (RngState.seeded 0 0)).1, g.1.Nodup) ∧
     (predict3in3 prngHalf storeSeven 3 (some 123) 0 entropyHalf
        (RngState.seeded 0 0)).1.Pairwise (fun g1 g2 => g1.1 ≠ g2.1)) :=
  ⟨by decide, c9_three_groups_distinct prngHalf storeSeven (some 123) 0
    entropyHalf (RngState.seeded 0 0) (by decide)⟩
